import Mathlib

/-
  Verification of the wolfram plugin service layer (src/src/service.ts and the
  conversational action handler) against its natural-language specification.

  The TypeScript source is shallowly embedded: the in-process caches (JS Map
  objects) become association lists that keep insertion order, timestamps are
  naturals (milliseconds), the HTTP transport becomes an oracle mapping the
  index of the outbound call to its outcome, and each service method becomes a
  state-passing function over a service-state record.
-/

namespace Wolfram

/-! ## JS Map model

A JS Map iterates in insertion order; setting an existing key updates the
binding in place (keeping its position), setting a fresh key appends. -/

/-- Lookup in a JS Map (first binding wins; bindings are unique in practice). -/
def mapGet {κ β : Type} [DecidableEq κ] : List (κ × β) → κ → Option β
  | [], _ => none
  | p :: rest, k => if p.1 = k then some p.2 else mapGet rest k

/-- JS Map.set: replace the existing binding in place, else append. -/
def mapSet {κ β : Type} [DecidableEq κ] : List (κ × β) → κ → β → List (κ × β)
  | [], k, v => [(k, v)]
  | p :: rest, k, v => if p.1 = k then (k, v) :: rest else p :: mapSet rest k v

/-- JS Map.delete: drop the binding for the key. -/
def mapDelete {κ β : Type} [DecidableEq κ] (m : List (κ × β)) (k : κ) : List (κ × β) :=
  m.filter (fun p => decide (p.1 ≠ k))

/-- Keys of the map are pairwise distinct (true of every JS Map). -/
def keysNodup {κ β : Type} (m : List (κ × β)) : Prop :=
  (m.map Prod.fst).Nodup

/-! ## Cache entries and the cache policy (service.ts lines 657-700) -/

/-- WolframCacheEntry from types.ts: the key is repeated in the `query` field. -/
structure CacheEntry (κ α : Type) where
  query : κ
  result : α
  timestamp : Nat
  ttl : Nat
deriving DecidableEq, Repr

/-- CACHE_TTL: one hour in milliseconds. -/
def CACHE_TTL : Nat := 3600000

/-- MAX_CACHE_ENTRIES: hard cap on the cache size. -/
def MAX_CACHE_ENTRIES : Nat := 200

/-- getCached: expired entries (age strictly greater than ttl) are deleted on
read; otherwise the stored result is returned.  Returns the possibly shrunk
cache alongside the lookup result. -/
def getCached {κ α : Type} [DecidableEq κ] (cache : List (κ × CacheEntry κ α)) (now : Nat)
    (key : κ) : Option α × List (κ × CacheEntry κ α) :=
  match mapGet cache key with
  | none => (none, cache)
  | some entry =>
    if entry.ttl < now - entry.timestamp then (none, mapDelete cache key)
    else (some entry.result, cache)

/-- cleanCache: sweep out every entry whose age exceeds its own ttl. -/
def cleanCache {κ α : Type} [DecidableEq κ] (cache : List (κ × CacheEntry κ α)) (now : Nat) :
    List (κ × CacheEntry κ α) :=
  cache.filter (fun p => decide (now - p.2.timestamp ≤ p.2.ttl))

/-- The size-cap enforcement at the end of setCached: when the entry count
exceeds the cap, delete the first key in iteration order (oldest inserted). -/
def evictOversize {κ α : Type} [DecidableEq κ] (c2 : List (κ × CacheEntry κ α)) :
    List (κ × CacheEntry κ α) :=
  if MAX_CACHE_ENTRIES < c2.length then
    match c2 with
    | [] => c2
    | (k0, _) :: _ => mapDelete c2 k0
  else c2

/-- setCached: store the entry, sweep expired entries, then enforce the size
cap. -/
def setCached {κ α : Type} [DecidableEq κ] (cache : List (κ × CacheEntry κ α)) (now : Nat)
    (key : κ) (result : α) (ttl : Nat) : List (κ × CacheEntry κ α) :=
  evictOversize (cleanCache (mapSet cache key ⟨key, result, now, ttl⟩) now)

/-! ## HTTP transport and the retry wrapper (service.ts lines 99-123) -/

/-- An axios rejection: optional HTTP status plus an error message. -/
structure HttpErr where
  status : Option Nat
  msg : String
deriving DecidableEq, Repr

/-- Outcome of one client.get attempt. -/
inductive HttpOutcome (α : Type) where
  | ok (val : α)
  | err (e : HttpErr)
deriving DecidableEq

/-- status === 429 || (status >= 500 && status < 600); a missing status is
never retriable (undefined >= 500 is false in JS). -/
def retriableStatus : Option Nat → Bool
  | none => false
  | some s => s == 429 || (decide (500 ≤ s) && decide (s < 600))

/-- Body of the getWithRetry loop.  `resp` maps the global outbound-call index
to the outcome of that attempt and `cnt` is the current index; the result also
carries the new index and the list of backoff delays slept.  The loop runs at
most maxRetries + 1 attempts, so that much fuel makes the last branch dead. -/
def retryGo {α : Type} (resp : Nat → HttpOutcome α) (maxRetries : Nat) :
    Nat → Nat → Nat → Nat → Except HttpErr α × Nat × List Nat
  | _, _, cnt, 0 => (Except.error ⟨none, "retry fuel exhausted"⟩, cnt, [])
  | attempt, delayMs, cnt, fuel + 1 =>
    match resp cnt with
    | .ok a => (Except.ok a, cnt + 1, [])
    | .err e =>
      if !retriableStatus e.status || decide (maxRetries ≤ attempt) then
        (Except.error e, cnt + 1, [])
      else
        let rest := retryGo resp maxRetries (attempt + 1) (delayMs * 2) (cnt + 1) fuel
        (rest.1, rest.2.1, delayMs :: rest.2.2)

/-- getWithRetry: attempt 0, initial delay 250 ms. -/
def getWithRetry {α : Type} (resp : Nat → HttpOutcome α) (maxRetries cnt : Nat) :
    Except HttpErr α × Nat × List Nat :=
  retryGo resp maxRetries 0 250 cnt (maxRetries + 1)

/-! ## String helpers for JS idioms -/

/-- Whether the pattern is a leading segment of the character list. -/
def charsHasPrefix : List Char → List Char → Bool
  | _, [] => true
  | [], _ :: _ => false
  | c :: cs, p :: ps => c == p && charsHasPrefix cs ps

/-- Whether the pattern occurs contiguously in the character list. -/
def charsContains : List Char → List Char → Bool
  | [], pat => pat.isEmpty
  | c :: cs, pat => charsHasPrefix (c :: cs) pat || charsContains cs pat

/-- str.includes(pat). -/
def containsSubstr (s pat : String) : Bool :=
  charsContains s.toList pat.toList

/-- One character of JSON.stringify output for a string value. -/
def jsEscapeChar (c : Char) : String :=
  if c = '"' then "\\\"" else if c = '\\' then "\\\\" else String.singleton c

/-- JSON string escaping (quote and backslash; other characters verbatim). -/
def jsEscape (s : String) : String :=
  String.join (s.toList.map jsEscapeChar)

/-- A JSON string literal. -/
def jsQuote (s : String) : String :=
  "\"" ++ jsEscape s ++ "\""

/-- JSON.stringify of an options object: string-valued fields in insertion
order (JS objects keep key insertion order, and the serialization follows it,
so reordered fields serialize differently). -/
def jsonStringifyOpts (opts : List (String × String)) : String :=
  "\x7b" ++ String.intercalate "," (opts.map (fun p => jsQuote p.1 ++ ":" ++ jsQuote p.2)) ++
    "\x7d"

/-! ## Result payload shapes (types.ts), restricted to the fields the service
layer reads -/

/-- WolframSubpod: only plaintext is consulted; absent models undefined. -/
structure WolframSubpod where
  plaintext : Option String
deriving DecidableEq, Repr

/-- WolframPod fields read by the service layer. `subpods = none` models a
payload with the field missing (the code guards every access). -/
structure WolframPod where
  title : String
  scanner : String
  primary : Bool
  subpods : Option (List WolframSubpod)
deriving DecidableEq, Repr

/-- One choice inside an assumption (only desc is rendered). -/
structure WolframAssumptionValue where
  desc : String
deriving DecidableEq, Repr

/-- WolframAssumption: only the values list is rendered. -/
structure WolframAssumption where
  values : Option (List WolframAssumptionValue)
deriving DecidableEq, Repr

/-- WolframWarning: only the text is rendered. -/
structure WolframWarning where
  text : String
deriving DecidableEq, Repr

/-- The decoded full-query payload (response.data.queryresult). -/
structure WolframAlphaQueryResult where
  success : Bool
  numpods : Option Nat
  pods : Option (List WolframPod)
  assumptions : Option (List WolframAssumption)
  warnings : Option (List WolframWarning)
deriving DecidableEq, Repr

/-- Short Answer result constructed by getShortAnswer. -/
structure WolframShortAnswerResult where
  answer : String
  success : Bool
  error : Option String
deriving DecidableEq, Repr

/-- Spoken Answer result constructed by getSpokenAnswer. -/
structure WolframSpokenResult where
  spoken : String
  success : Bool
  error : Option String
deriving DecidableEq, Repr

/-- Analysis result constructed by analyzeData; results keeps JS object key
insertion order. -/
structure WolframAnalysisResult where
  input : String
  results : List (String × List String)
  error : Option String
deriving DecidableEq, Repr

/-- The conversational payload.  The string fields are only ever consulted for
JS truthiness or fed to fallback chains, where the empty string and a missing
field behave identically, so absent is modelled as the empty string. -/
structure WolframConversationResult where
  conversationID : String
  host : String
  s : String
  result : String
  error : String
  expired : Bool
deriving DecidableEq, Repr

/-- subpod.plaintext under JS truthiness: present and non-empty. -/
def subpodText (sp : WolframSubpod) : Option String :=
  match sp.plaintext with
  | some t => if t = "" then none else some t
  | none => none

/-! ## formatResult (service.ts lines 611-652) -/

/-- The body of the pod loop: skip pods with missing or empty subpods, else
push the bolded title and then each truthy plaintext. -/
def renderPodInto (out : List String) (pod : WolframPod) : List String :=
  match pod.subpods with
  | none => out
  | some subs =>
    if subs.length = 0 then out
    else
      subs.foldl
        (fun o sp => match subpodText sp with | some t => o ++ [t] | none => o)
        (out ++ ["**" ++ pod.title ++ "**"])

/-- The assumptions block: pushed whenever the field is present. -/
def assumptionsInto (result : WolframAlphaQueryResult) (out : List String) : List String :=
  match result.assumptions with
  | none => out
  | some assumptions =>
    assumptions.foldl
      (fun o a =>
        match a.values with
        | none => o
        | some vs => o ++ ["- " ++ String.intercalate ", " (vs.map (fun v => v.desc))])
      (out ++ ["\n*Assumptions:*"])

/-- The warnings block: pushed whenever the field is present. -/
def warningsInto (result : WolframAlphaQueryResult) (out : List String) : List String :=
  match result.warnings with
  | none => out
  | some ws => ws.foldl (fun o w => o ++ ["- " ++ w.text]) (out ++ ["\n*Warnings:*"])

/-- output.join("\n") || "No results to display". -/
def finishOutput (out : List String) : String :=
  let joined := String.intercalate "\n" out
  if joined = "" then "No results to display" else joined

/-- The pods the formatter keeps: drop titles equal to "Input", then prefer
the primary pods when any remain. -/
def podsToRender (allPods : List WolframPod) : List WolframPod :=
  let pods := allPods.filter (fun p => decide (p.title ≠ "Input"))
  let primaryPods := pods.filter (fun p => p.primary)
  if 0 < primaryPods.length then primaryPods else pods

/-- formatResult, translated clause by clause from the source. -/
def formatResult (result : WolframAlphaQueryResult) : String :=
  if !result.success then "No results found"
  else
    let out0 : List String :=
      match result.pods with
      | none => []
      | some allPods => (podsToRender allPods).foldl renderPodInto []
    finishOutput (warningsInto result (assumptionsInto result out0))

/-- The plain-text fragments of a pod (truthy plaintexts, in order). -/
def podFragments (pod : WolframPod) : List String :=
  (pod.subpods.getD []).filterMap subpodText

/-- Rendering of one section exactly as the claim words it: the title,
followed by each of its plain-text fragments. -/
def renderPodClaim (pod : WolframPod) : List String :=
  ("**" ++ pod.title ++ "**") :: podFragments pod

/-- Formalization of the C9 claim text as written: every rendered section
emits its title followed by its fragments, even a section with no subpods. -/
def formatResultClaim (result : WolframAlphaQueryResult) : String :=
  if !result.success then "No results found"
  else
    let out0 : List String :=
      match result.pods with
      | none => []
      | some allPods => (podsToRender allPods).foldl (fun o p => o ++ renderPodClaim p) []
    finishOutput (warningsInto result (assumptionsInto result out0))

/-- Rendering of one section as the amended claim words it: a section whose
subpods list is missing or empty is skipped entirely. -/
def renderPodClaimAmended (pod : WolframPod) : List String :=
  if (pod.subpods.getD []).length = 0 then [] else renderPodClaim pod

/-- The amended C9 rendering contract. -/
def formatResultClaimAmended (result : WolframAlphaQueryResult) : String :=
  if !result.success then "No results found"
  else
    let out0 : List String :=
      match result.pods with
      | none => []
      | some allPods =>
        (podsToRender allPods).foldl (fun o p => o ++ renderPodClaimAmended p) []
    finishOutput (warningsInto result (assumptionsInto result out0))

/-! ## Service state and operations

The single cache map stores heterogeneous values (`result: any` in the
source); CacheValue is the union of every value actually stored.  JS
truthiness of a cached value: only the empty string is falsy. -/

/-- A value held in the result cache. -/
inductive CacheValue where
  | str (s : String)
  | strList (l : List String)
  | queryRes (r : WolframAlphaQueryResult)
  | shortRes (r : WolframShortAnswerResult)
  | spokenRes (r : WolframSpokenResult)
  | analysisRes (r : WolframAnalysisResult)
deriving DecidableEq, Repr

/-- JS truthiness of a cached value: arrays and objects are always truthy. -/
def CacheValue.truthy : CacheValue → Bool
  | .str s => decide (s ≠ "")
  | _ => true

/-- Reading a cached value as a full-query result: any other shape behaves
like undefined field accesses (falsy success, falsy pods) downstream. -/
def CacheValue.asQuery : CacheValue → Option WolframAlphaQueryResult
  | .queryRes r => some r
  | _ => none

/-- The transport oracle: for each outbound call index, the decoded outcome
the remote would produce on the endpoint the service hits. -/
structure Oracle where
  onQuery : Nat → HttpOutcome WolframAlphaQueryResult
  onShort : Nat → HttpOutcome String
  onSpoken : Nat → HttpOutcome String
  onSimple : Nat → HttpOutcome String
  onConv : Nat → HttpOutcome WolframConversationResult

/-- The mutable state of WolframService: the result cache, the per-user
conversation map, and the number of outbound transport calls issued so far. -/
structure SvcState where
  cache : List (String × CacheEntry String CacheValue)
  conversationCache : List (String × String)
  calls : Nat
deriving DecidableEq, Repr

/-- The cache key of the full query method:
query:input:JSON.stringify(options). -/
def queryCacheKey (input : String) (opts : List (String × String)) : String :=
  "query:" ++ input ++ ":" ++ jsonStringifyOpts opts

/-- The fetch path of query: retry-wrapped GET, then cache only when the
remote reports success; a transport failure is rethrown wrapped. -/
def runQueryFetch (st : SvcState) (now : Nat) (key : String) (o : Oracle) :
    Except String CacheValue × SvcState :=
  let r := getWithRetry o.onQuery 2 st.calls
  let st2 : SvcState := { st with calls := r.2.1 }
  match r.1 with
  | .error e => (Except.error ("Wolfram query failed: " ++ e.msg), st2)
  | .ok result =>
    if result.success then
      (Except.ok (.queryRes result),
        { st2 with cache := setCached st2.cache now key (.queryRes result) CACHE_TTL })
    else (Except.ok (.queryRes result), st2)

/-- query (service.ts lines 128-181): cache hit short-circuits (JS truthiness
on the cached value), otherwise fetch. -/
def runQuery (st : SvcState) (now : Nat) (input : String) (opts : List (String × String))
    (o : Oracle) : Except String CacheValue × SvcState :=
  let key := queryCacheKey input opts
  let hit := getCached st.cache now key
  let st1 : SvcState := { st with cache := hit.2 }
  match hit.1 with
  | some v => if v.truthy then (Except.ok v, st1) else runQueryFetch st1 now key o
  | none => runQueryFetch st1 now key o

/-- The fetch path of getShortAnswer: a failure is swallowed and returned as
an unsuccessful value carrying the error message; a success is cached. -/
def runShortFetch (st : SvcState) (now : Nat) (key : String) (o : Oracle) :
    Except String CacheValue × SvcState :=
  let r := getWithRetry o.onShort 2 st.calls
  let st2 : SvcState := { st with calls := r.2.1 }
  match r.1 with
  | .error e => (Except.ok (.shortRes ⟨"", false, some e.msg⟩), st2)
  | .ok data =>
    (Except.ok (.shortRes ⟨data, true, none⟩),
      { st2 with cache := setCached st2.cache now key (.shortRes ⟨data, true, none⟩) CACHE_TTL })

/-- getShortAnswer (service.ts lines 224-259). -/
def runShort (st : SvcState) (now : Nat) (input : String) (o : Oracle) :
    Except String CacheValue × SvcState :=
  let key := "short:" ++ input
  let hit := getCached st.cache now key
  let st1 : SvcState := { st with cache := hit.2 }
  match hit.1 with
  | some v => if v.truthy then (Except.ok v, st1) else runShortFetch st1 now key o
  | none => runShortFetch st1 now key o

/-- The fetch path of getSpokenAnswer, mirroring the short-answer one. -/
def runSpokenFetch (st : SvcState) (now : Nat) (key : String) (o : Oracle) :
    Except String CacheValue × SvcState :=
  let r := getWithRetry o.onSpoken 2 st.calls
  let st2 : SvcState := { st with calls := r.2.1 }
  match r.1 with
  | .error e => (Except.ok (.spokenRes ⟨"", false, some e.msg⟩), st2)
  | .ok data =>
    (Except.ok (.spokenRes ⟨data, true, none⟩),
      { st2 with cache := setCached st2.cache now key (.spokenRes ⟨data, true, none⟩) CACHE_TTL })

/-- getSpokenAnswer (service.ts lines 264-299). -/
def runSpoken (st : SvcState) (now : Nat) (input : String) (o : Oracle) :
    Except String CacheValue × SvcState :=
  let key := "spoken:" ++ input
  let hit := getCached st.cache now key
  let st1 : SvcState := { st with cache := hit.2 }
  match hit.1 with
  | some v => if v.truthy then (Except.ok v, st1) else runSpokenFetch st1 now key o
  | none => runSpokenFetch st1 now key o

/-- The fetch path of getSimpleAnswer: the binary body is modelled by its
base64 encoding; a transport failure is rethrown wrapped. -/
def runSimpleFetch (st : SvcState) (now : Nat) (key : String) (o : Oracle) :
    Except String CacheValue × SvcState :=
  let r := getWithRetry o.onSimple 2 st.calls
  let st2 : SvcState := { st with calls := r.2.1 }
  match r.1 with
  | .error e => (Except.error ("Simple answer failed: " ++ e.msg), st2)
  | .ok b64 =>
    let url := "data:image/gif;base64," ++ b64
    (Except.ok (.str url),
      { st2 with cache := setCached st2.cache now key (.str url) CACHE_TTL })

/-- getSimpleAnswer (service.ts lines 186-219). -/
def runSimple (st : SvcState) (now : Nat) (input : String) (o : Oracle) :
    Except String CacheValue × SvcState :=
  let key := "simple:" ++ input
  let hit := getCached st.cache now key
  let st1 : SvcState := { st with cache := hit.2 }
  match hit.1 with
  | some v => if v.truthy then (Except.ok v, st1) else runSimpleFetch st1 now key o
  | none => runSimpleFetch st1 now key o

/-- The solution-pod search of solveMath. -/
def findSolutionPod (pods : List WolframPod) : Option WolframPod :=
  pods.find? (fun pod =>
    pod.title == "Solution" || pod.title == "Result" || containsSubstr pod.title "solution")

/-- The body of solveMath after its own cache miss: delegate to query, then
extract the first subpod of the solution pod.  Only a found solution is
cached (the fallback strings are returned uncached). -/
def runSolveBody (st : SvcState) (now : Nat) (key equation : String) (o : Oracle) :
    Except String CacheValue × SvcState :=
  let q := runQuery st now ("solve " ++ equation) [] o
  match q.1 with
  | .error msg => (Except.error ("Failed to solve equation: " ++ msg), q.2)
  | .ok v =>
    match v.asQuery with
    | none => (Except.ok (.str "Could not solve the equation"), q.2)
    | some result =>
      if !result.success || result.pods.isNone then
        (Except.ok (.str "Could not solve the equation"), q.2)
      else
        match findSolutionPod (result.pods.getD []) with
        | none => (Except.ok (.str "No solution found"), q.2)
        | some pod =>
          match pod.subpods with
          | some (sp :: _) =>
            let solution := (subpodText sp).getD "No solution found"
            (Except.ok (.str solution),
              { q.2 with cache := setCached q.2.cache now key (.str solution) CACHE_TTL })
          | _ => (Except.ok (.str "No solution found"), q.2)

/-- solveMath (service.ts lines 363-402). -/
def runSolve (st : SvcState) (now : Nat) (equation : String) (o : Oracle) :
    Except String CacheValue × SvcState :=
  let key := "solve:" ++ equation
  let hit := getCached st.cache now key
  let st1 : SvcState := { st with cache := hit.2 }
  match hit.1 with
  | some v => if v.truthy then (Except.ok v, st1) else runSolveBody st1 now key equation o
  | none => runSolveBody st1 now key equation o

/-- Step collection from pods whose title mentions step or whose scanner is
the equation solver. -/
def stepsFromPods (pods : List WolframPod) : List String :=
  pods.foldl
    (fun acc pod =>
      if containsSubstr pod.title "step" || containsSubstr pod.title "Step" ||
          pod.scanner == "Solve" then
        (pod.subpods.getD []).foldl
          (fun a sp => match subpodText sp with | some t => a ++ [t] | none => a) acc
      else acc)
    []

/-- The fallback over all pods, labelling each fragment with its pod title. -/
def stepsFallback (pods : List WolframPod) : List String :=
  pods.foldl
    (fun acc pod =>
      match pod.subpods with
      | none => acc
      | some subs =>
        subs.foldl
          (fun a sp =>
            match subpodText sp with
            | some t => a ++ [pod.title ++ ": " ++ t]
            | none => a)
          acc)
    []

/-- The body of getStepByStep after its own cache miss.  The possibly empty
steps list is cached; the placeholder is substituted only in the returned
value. -/
def runStepsBody (st : SvcState) (now : Nat) (key problem : String) (o : Oracle) :
    Except String CacheValue × SvcState :=
  let q := runQuery st now problem [("podstate", "Step-by-step solution")] o
  match q.1 with
  | .error msg => (Except.error ("Failed to get step-by-step solution: " ++ msg), q.2)
  | .ok v =>
    match v.asQuery with
    | none => (Except.ok (.strList ["Could not generate step-by-step solution"]), q.2)
    | some result =>
      if !result.success || result.pods.isNone then
        (Except.ok (.strList ["Could not generate step-by-step solution"]), q.2)
      else
        let pods := result.pods.getD []
        let steps0 := stepsFromPods pods
        let steps := if steps0.length = 0 then stepsFallback pods else steps0
        (Except.ok (.strList
            (if 0 < steps.length then steps else ["No step-by-step solution available"])),
          { q.2 with cache := setCached q.2.cache now key (.strList steps) CACHE_TTL })

/-- getStepByStep (service.ts lines 407-464). -/
def runSteps (st : SvcState) (now : Nat) (problem : String) (o : Oracle) :
    Except String CacheValue × SvcState :=
  let key := "steps:" ++ problem
  let hit := getCached st.cache now key
  let st1 : SvcState := { st with cache := hit.2 }
  match hit.1 with
  | some v => if v.truthy then (Except.ok v, st1) else runStepsBody st1 now key problem o
  | none => runStepsBody st1 now key problem o

/-- Fact collection: fragments longer than 10 characters, labelled with their
pod title. -/
def factsFromPods (pods : List WolframPod) : List String :=
  pods.foldl
    (fun acc pod =>
      match pod.subpods with
      | none => acc
      | some subs =>
        subs.foldl
          (fun a sp =>
            match sp.plaintext with
            | some t =>
              if decide (t ≠ "") && decide (10 < t.length) then
                a ++ [pod.title ++ ": " ++ t]
              else a
            | none => a)
          acc)
    []

/-- The body of getFacts after its own cache miss.  The possibly empty facts
list is cached; the placeholder is substituted only in the returned value. -/
def runFactsBody (st : SvcState) (now : Nat) (key topic : String) (o : Oracle) :
    Except String CacheValue × SvcState :=
  let q := runQuery st now topic [] o
  match q.1 with
  | .error msg => (Except.error ("Failed to get facts: " ++ msg), q.2)
  | .ok v =>
    match v.asQuery with
    | none => (Except.ok (.strList ["No facts found about " ++ topic]), q.2)
    | some result =>
      if !result.success || result.pods.isNone then
        (Except.ok (.strList ["No facts found about " ++ topic]), q.2)
      else
        let facts := factsFromPods (result.pods.getD [])
        (Except.ok (.strList (if 0 < facts.length then facts else ["No facts found about " ++ topic])),
          { q.2 with cache := setCached q.2.cache now key (.strList facts) CACHE_TTL })

/-- getFacts (service.ts lines 518-556). -/
def runFacts (st : SvcState) (now : Nat) (topic : String) (o : Oracle) :
    Except String CacheValue × SvcState :=
  let key := "facts:" ++ topic
  let hit := getCached st.cache now key
  let st1 : SvcState := { st with cache := hit.2 }
  match hit.1 with
  | some v => if v.truthy then (Except.ok v, st1) else runFactsBody st1 now key topic o
  | none => runFactsBody st1 now key topic o

/-- The per-pod statistics extraction of analyzeData: one object field per pod
owning at least one fragment. -/
def analysisResults (pods : List WolframPod) : List (String × List String) :=
  pods.foldl
    (fun acc pod =>
      match pod.subpods with
      | none => acc
      | some subs =>
        let podData := subs.filterMap subpodText
        if 0 < podData.length then mapSet acc pod.title podData else acc)
    []

/-- The body of analyzeData after its own cache miss. -/
def runAnalyzeBody (st : SvcState) (now : Nat) (key data : String) (o : Oracle) :
    Except String CacheValue × SvcState :=
  let q := runQuery st now ("statistics " ++ data) [] o
  match q.1 with
  | .error msg => (Except.error ("Failed to analyze data: " ++ msg), q.2)
  | .ok v =>
    match v.asQuery with
    | none => (Except.ok (.analysisRes ⟨data, [], some "Could not analyze data"⟩), q.2)
    | some result =>
      if !result.success || result.pods.isNone then
        (Except.ok (.analysisRes ⟨data, [], some "Could not analyze data"⟩), q.2)
      else
        let analysis : WolframAnalysisResult := ⟨data, analysisResults (result.pods.getD []), none⟩
        (Except.ok (.analysisRes analysis),
          { q.2 with cache := setCached q.2.cache now key (.analysisRes analysis) CACHE_TTL })

/-- analyzeData (service.ts lines 561-606). -/
def runAnalyze (st : SvcState) (now : Nat) (data : String) (o : Oracle) :
    Except String CacheValue × SvcState :=
  let key := "analyze:" ++ data
  let hit := getCached st.cache now key
  let st1 : SvcState := { st with cache := hit.2 }
  match hit.1 with
  | some v => if v.truthy then (Except.ok v, st1) else runAnalyzeBody st1 now key data o
  | none => runAnalyzeBody st1 now key data o

/-! ## Conversational API (service.ts lines 304-358) and its action handler -/

/-- The request parameters of one conversational call that the claims
inspect. -/
structure ConvParams where
  input : String
  maxchars : Nat
  conversationID : Option String
deriving DecidableEq, Repr

/-- conversationalQuery: attach the stored handle when truthy, issue the
retry-wrapped GET, store a truthy conversation id from the response, and
rethrow transport failures wrapped.  The params actually sent are returned
for inspection. -/
def runConv (st : SvcState) (input userId : String) (maxChars : Nat) (o : Oracle) :
    Except String WolframConversationResult × SvcState × ConvParams :=
  let cid : Option String :=
    match mapGet st.conversationCache userId with
    | some c => if c = "" then none else some c
    | none => none
  let params : ConvParams := ⟨input, maxChars, cid⟩
  let r := getWithRetry o.onConv 2 st.calls
  let st2 : SvcState := { st with calls := r.2.1 }
  match r.1 with
  | .error e => (Except.error ("Conversational query failed: " ++ e.msg), st2, params)
  | .ok result =>
    let st3 : SvcState :=
      if result.conversationID = "" then st2
      else { st2 with
        conversationCache := mapSet st2.conversationCache userId result.conversationID }
    (Except.ok result, st3, params)

/-- clearConversation (service.ts lines 355-358). -/
def clearConversation (st : SvcState) (userId : String) : SvcState :=
  { st with conversationCache := mapDelete st.conversationCache userId }

/-- result.result || result.s || default. -/
def firstTruthyOr (a b dflt : String) : String :=
  if a ≠ "" then a else if b ≠ "" then b else dflt

/-- What the handler pushes through its callback. -/
structure HandlerOutput where
  text : String
  error : Bool
  newConversation : Bool
deriving DecidableEq, Repr

/-- One run of the conversational action handler: its callback payload, its
boolean return, the final service state, and the parameter sets of the
conversational calls it issued, in order. -/
structure HandlerRun where
  output : HandlerOutput
  returned : Bool
  state : SvcState
  sent : List ConvParams
deriving DecidableEq, Repr

/-- wolframConversationalAction.handler, conversational branch: an error field
on the response wins over the expired flag; an expired response (with no
error) clears the handle and reissues exactly once, surfacing whatever the
reissue returns; a thrown failure lands in the outer catch. -/
def convHandler (st : SvcState) (input userId : String) (o : Oracle) : HandlerRun :=
  let c1 := runConv st input userId 2000 o
  match c1.1 with
  | .error msg =>
    ⟨⟨"Failed to process conversational query: " ++ msg, true, false⟩, false, c1.2.1, [c1.2.2]⟩
  | .ok result =>
    if result.error ≠ "" then
      ⟨⟨"Error: " ++ result.error, true, false⟩, false, c1.2.1, [c1.2.2]⟩
    else if result.expired then
      let st2 := clearConversation c1.2.1 userId
      let c2 := runConv st2 input userId 2000 o
      match c2.1 with
      | .error msg =>
        ⟨⟨"Failed to process conversational query: " ++ msg, true, false⟩, false, c2.2.1,
          [c1.2.2, c2.2.2]⟩
      | .ok rr =>
        ⟨⟨firstTruthyOr rr.result rr.s "No response available.", false, true⟩, true, c2.2.1,
          [c1.2.2, c2.2.2]⟩
    else
      ⟨⟨firstTruthyOr result.result result.s "No response available.", false, false⟩, true,
        c1.2.1, [c1.2.2]⟩

/-! ## The logical operations as one indexed family (for claims quantifying
over every cached operation) -/

/-- The eight cached operations of the service. -/
inductive OpCall where
  | queryOp (input : String) (opts : List (String × String))
  | shortOp (input : String)
  | spokenOp (input : String)
  | simpleOp (input : String)
  | solveOp (equation : String)
  | stepsOp (problem : String)
  | factsOp (topic : String)
  | analyzeOp (data : String)
deriving DecidableEq, Repr

/-- The cache key each operation uses for itself. -/
def opKey : OpCall → String
  | .queryOp i opts => queryCacheKey i opts
  | .shortOp i => "short:" ++ i
  | .spokenOp i => "spoken:" ++ i
  | .simpleOp i => "simple:" ++ i
  | .solveOp e => "solve:" ++ e
  | .stepsOp p => "steps:" ++ p
  | .factsOp t => "facts:" ++ t
  | .analyzeOp d => "analyze:" ++ d

/-- Dispatch an operation against the service state. -/
def runOp (c : OpCall) (st : SvcState) (now : Nat) (o : Oracle) :
    Except String CacheValue × SvcState :=
  match c with
  | .queryOp i opts => runQuery st now i opts o
  | .shortOp i => runShort st now i o
  | .spokenOp i => runSpoken st now i o
  | .simpleOp i => runSimple st now i o
  | .solveOp e => runSolve st now e o
  | .stepsOp p => runSteps st now p o
  | .factsOp t => runFacts st now t o
  | .analyzeOp d => runAnalyze st now d o

/-! ## Helper lemmas about the cache primitives -/

theorem getCached_hit {κ α : Type} [DecidableEq κ] {cache : List (κ × CacheEntry κ α)}
    {now : Nat} {key : κ} {e : CacheEntry κ α} (h : mapGet cache key = some e)
    (hage : now - e.timestamp ≤ e.ttl) : getCached cache now key = (some e.result, cache) := by
  unfold getCached
  rw [h]
  simp [Nat.not_lt.mpr hage]

theorem getCached_expired {κ α : Type} [DecidableEq κ] {cache : List (κ × CacheEntry κ α)}
    {now : Nat} {key : κ} {e : CacheEntry κ α} (h : mapGet cache key = some e)
    (hage : e.ttl < now - e.timestamp) :
    getCached cache now key = (none, mapDelete cache key) := by
  unfold getCached
  rw [h]
  simp [hage]

theorem getCached_snd_sublist {κ α : Type} [DecidableEq κ]
    (cache : List (κ × CacheEntry κ α)) (now : Nat) (key : κ) :
    (getCached cache now key).2.Sublist cache := by
  unfold getCached
  cases h : mapGet cache key with
  | none => exact List.Sublist.refl cache
  | some e =>
    by_cases hage : e.ttl < now - e.timestamp
    · simp only [hage, if_true]
      exact List.filter_sublist cache
    · simp [hage]

/-! ## C2: TTL expiry boundary -/

/-- A one-entry cache whose entry was inserted at time 10 with ttl 5. -/
def c2Cache : List (String × CacheEntry String CacheValue) :=
  [("k", ⟨"k", CacheValue.str "v", 10, 5⟩)]

/-- C2 counterexample: the claim says a get at any time greater than or equal
to T+D returns absent, but at exactly T+D = 15 the code finds age = ttl, the
strict comparison age > ttl fails, and the stored value is returned. -/
theorem claim_C2_counterexample :
    (getCached c2Cache 15 "k").1 = some (CacheValue.str "v") ∧ 10 + 5 ≤ 15 := by
  constructor
  · rfl
  · decide

/-- C2 (amended): an entry inserted at T with ttl D is returned (and kept) by
a get at any time with now - T ≤ D, and is absent (and deleted) at any time
with now - T > D; the boundary time T+D itself is still a hit. -/
theorem claim_C2_ttl_boundary :
    (∀ (κ α : Type) (_i : DecidableEq κ) (cache : List (κ × CacheEntry κ α)) (now : Nat)
      (key : κ) (e : CacheEntry κ α), mapGet cache key = some e →
      now - e.timestamp ≤ e.ttl → getCached cache now key = (some e.result, cache)) ∧
    (∀ (κ α : Type) (_i : DecidableEq κ) (cache : List (κ × CacheEntry κ α)) (now : Nat)
      (key : κ) (e : CacheEntry κ α), mapGet cache key = some e →
      e.ttl < now - e.timestamp → getCached cache now key = (none, mapDelete cache key)) := by
  constructor
  · intro κ α _i cache now key e h hage
    exact getCached_hit h hage
  · intro κ α _i cache now key e h hage
    exact getCached_expired h hage

/-- C2 witness: the boundary hit at time 15 and the miss-and-delete at
time 16, on the concrete one-entry cache. -/
theorem claim_C2_ttl_boundary_witness :
    getCached c2Cache 15 "k" = (some (CacheValue.str "v"), c2Cache) ∧
    getCached c2Cache 16 "k" = (none, mapDelete c2Cache "k") := by
  constructor
  · exact claim_C2_ttl_boundary.1 String CacheValue inferInstance c2Cache 15 "k"
      ⟨"k", CacheValue.str "v", 10, 5⟩ rfl (by decide)
  · exact claim_C2_ttl_boundary.2 String CacheValue inferInstance c2Cache 16 "k"
      ⟨"k", CacheValue.str "v", 10, 5⟩ rfl (by decide)

/-! ## C5: retry policy -/

/-- C5: with the default budget of 2 extra attempts, an immediate success
makes one call; a non-retriable failure (status not 429/5xx, or no status)
propagates at once after one call with no sleep; a retriable failure is
retried after the fixed 250 ms delay, the delay doubling after each failed
attempt (250 then 500); a success or non-retriable failure on a later attempt
is surfaced as such; and after three retriable failures the third (last)
error propagates unchanged. -/
theorem claim_C5_retry_policy :
    (∀ (α : Type) (resp : Nat → HttpOutcome α) (cnt : Nat) (v : α),
      resp cnt = .ok v → getWithRetry resp 2 cnt = (Except.ok v, cnt + 1, [])) ∧
    (∀ (α : Type) (resp : Nat → HttpOutcome α) (cnt : Nat) (e : HttpErr),
      resp cnt = .err e → retriableStatus e.status = false →
      getWithRetry resp 2 cnt = (Except.error e, cnt + 1, [])) ∧
    (∀ (α : Type) (resp : Nat → HttpOutcome α) (cnt : Nat) (e0 : HttpErr) (v : α),
      resp cnt = .err e0 → retriableStatus e0.status = true → resp (cnt + 1) = .ok v →
      getWithRetry resp 2 cnt = (Except.ok v, cnt + 2, [250])) ∧
    (∀ (α : Type) (resp : Nat → HttpOutcome α) (cnt : Nat) (e0 e1 : HttpErr),
      resp cnt = .err e0 → retriableStatus e0.status = true → resp (cnt + 1) = .err e1 →
      retriableStatus e1.status = false →
      getWithRetry resp 2 cnt = (Except.error e1, cnt + 2, [250])) ∧
    (∀ (α : Type) (resp : Nat → HttpOutcome α) (cnt : Nat) (e0 e1 : HttpErr) (v : α),
      resp cnt = .err e0 → retriableStatus e0.status = true → resp (cnt + 1) = .err e1 →
      retriableStatus e1.status = true → resp (cnt + 2) = .ok v →
      getWithRetry resp 2 cnt = (Except.ok v, cnt + 3, [250, 500])) ∧
    (∀ (α : Type) (resp : Nat → HttpOutcome α) (cnt : Nat) (e0 e1 e2 : HttpErr),
      resp cnt = .err e0 → retriableStatus e0.status = true → resp (cnt + 1) = .err e1 →
      retriableStatus e1.status = true → resp (cnt + 2) = .err e2 →
      getWithRetry resp 2 cnt = (Except.error e2, cnt + 3, [250, 500])) := by
  refine ⟨?_, ?_, ?_, ?_, ?_, ?_⟩
  · intro α resp cnt v h0
    simp [getWithRetry, retryGo, h0]
  · intro α resp cnt e h0 hr
    simp [getWithRetry, retryGo, h0, hr]
  · intro α resp cnt e0 v h0 hr0 h1
    simp [getWithRetry, retryGo, h0, hr0, h1]
  · intro α resp cnt e0 e1 h0 hr0 h1 hr1
    simp [getWithRetry, retryGo, h0, hr0, h1, hr1]
  · intro α resp cnt e0 e1 v h0 hr0 h1 hr1 h2
    simp [getWithRetry, retryGo, h0, hr0, h1, hr1, h2]
  · intro α resp cnt e0 e1 e2 h0 hr0 h1 hr1 h2
    simp [getWithRetry, retryGo, h0, hr0, h1, hr1, h2]

/-- An attempt stream failing twice with 503 then succeeding. -/
def resp503 : Nat → HttpOutcome String :=
  fun n => if n < 2 then HttpOutcome.err ⟨some 503, "Service Unavailable"⟩
    else HttpOutcome.ok "42"

/-- An attempt stream always failing with 404. -/
def resp404 : Nat → HttpOutcome String :=
  fun _ => HttpOutcome.err ⟨some 404, "Not Found"⟩

/-- C5 witness: two 503 failures then a success yield the success after
exactly three attempts with delays 250 and 500; a 404 failure propagates
immediately after a single attempt. -/
theorem claim_C5_retry_policy_witness :
    getWithRetry resp503 2 0 = (Except.ok "42", 3, [250, 500]) ∧
    getWithRetry resp404 2 0 = (Except.error ⟨some 404, "Not Found"⟩, 1, []) := by
  constructor
  · exact claim_C5_retry_policy.2.2.2.2.1 String resp503 0 ⟨some 503, "Service Unavailable"⟩
      ⟨some 503, "Service Unavailable"⟩ "42" rfl (by decide) rfl (by decide) rfl
  · exact claim_C5_retry_policy.2.1 String resp404 0 ⟨some 404, "Not Found"⟩ rfl (by decide)

/-! ## C9: formatter rendering -/

theorem foldl_push_texts (subs : List WolframSubpod) (acc : List String) :
    subs.foldl (fun o sp => match subpodText sp with | some t => o ++ [t] | none => o) acc =
      acc ++ subs.filterMap subpodText := by
  induction subs generalizing acc with
  | nil => simp
  | cons sp rest ih =>
    cases h : subpodText sp with
    | none => simp [List.foldl_cons, h, ih]
    | some t => simp [List.foldl_cons, h, ih]

theorem renderPodInto_eq (out : List String) (pod : WolframPod) :
    renderPodInto out pod = out ++ renderPodClaimAmended pod := by
  unfold renderPodInto renderPodClaimAmended renderPodClaim podFragments
  cases hsub : pod.subpods with
  | none => simp
  | some subs =>
    cases subs with
    | nil => simp
    | cons sp rest =>
      simp only [List.length_cons, Option.getD_some]
      rw [foldl_push_texts]
      simp

theorem foldl_render_eq (pods : List WolframPod) (out : List String) :
    pods.foldl renderPodInto out = pods.foldl (fun o p => o ++ renderPodClaimAmended p) out := by
  induction pods generalizing out with
  | nil => rfl
  | cons p rest ih => simp [List.foldl_cons, renderPodInto_eq, ih]

/-- The particular C9 instance: one Input section and one Result section. -/
def c9Example : WolframAlphaQueryResult :=
  ⟨true, some 2,
    some [⟨"Input", "Identity", false, some [⟨some "x+3=7"⟩]⟩,
      ⟨"Result", "Solve", false, some [⟨some "x = 4"⟩]⟩],
    none, none⟩

/-- A successful result whose only section is primary, titled Result, with an
empty subpods list. -/
def c9EmptyPod : WolframAlphaQueryResult :=
  ⟨true, none, some [⟨"Result", "", true, some []⟩], none, none⟩

/-- C9 counterexample: the claim says each rendered section emits its title
followed by its plain-text fragments, so a primary Result section with an
empty subpods list should still emit its title; the code skips such a section
entirely and formats this result to the no-results placeholder instead. -/
theorem claim_C9_counterexample :
    formatResult c9EmptyPod ≠ formatResultClaim c9EmptyPod ∧
    formatResult c9EmptyPod = "No results to display" ∧
    formatResultClaim c9EmptyPod = "**Result**" := by
  refine ⟨by decide, by decide, by decide⟩

/-- C9 (amended): the formatter drops sections titled Input, renders only the
primary sections when any remain primary and all remaining sections
otherwise, emits for each rendered section its title then its plain-text
fragments in order — except that a section with a missing or empty subpods
list is skipped entirely — and appends the Assumptions block then the
Warnings block when those fields are present; on the particular instance the
formatted text contains Result and not Input. -/
theorem claim_C9_formatter :
    (∀ r : WolframAlphaQueryResult, formatResult r = formatResultClaimAmended r) ∧
    containsSubstr (formatResult c9Example) "Result" = true ∧
    containsSubstr (formatResult c9Example) "Input" = false := by
  refine ⟨?_, by decide, by decide⟩
  intro r
  unfold formatResult formatResultClaimAmended
  cases hs : r.success
  · rfl
  · cases hp : r.pods with
    | none => rfl
    | some allPods =>
      simp only [Bool.not_true, if_false]
      rw [foldl_render_eq]

/-! ## C3: sweep, capacity bound and eviction order -/

theorem mapSet_length {κ β : Type} [DecidableEq κ] (m : List (κ × β)) (k : κ) (v : β) :
    (mapSet m k v).length ≤ m.length + 1 := by
  induction m with
  | nil => simp [mapSet]
  | cons p rest ih =>
    unfold mapSet
    by_cases h : p.1 = k
    · simp [h]
    · simp only [h, if_false, List.length_cons]
      omega

theorem mem_keys_mapSet {κ β : Type} [DecidableEq κ] {m : List (κ × β)} {k a : κ} {v : β}
    (h : a ∈ (mapSet m k v).map Prod.fst) : a ∈ m.map Prod.fst ∨ a = k := by
  induction m with
  | nil =>
    unfold mapSet at h
    simp only [List.map_cons, List.map_nil, List.mem_singleton] at h
    exact Or.inr h
  | cons p rest ih =>
    by_cases hpk : p.1 = k
    · unfold mapSet at h
      simp only [hpk, if_true, List.map_cons, List.mem_cons] at h
      rcases h with h | h
      · exact Or.inr h
      · exact Or.inl (List.mem_cons_of_mem _ h)
    · unfold mapSet at h
      simp only [hpk, if_false, List.map_cons, List.mem_cons] at h
      rcases h with h | h
      · exact Or.inl (by simp [h])
      · rcases ih h with h2 | h2
        · exact Or.inl (List.mem_cons_of_mem _ h2)
        · exact Or.inr h2

theorem keysNodup_mapSet {κ β : Type} [DecidableEq κ] {m : List (κ × β)} (k : κ) (v : β)
    (h : keysNodup m) : keysNodup (mapSet m k v) := by
  induction m with
  | nil => simp [mapSet, keysNodup]
  | cons p rest ih =>
    unfold keysNodup at h
    simp only [List.map_cons, List.nodup_cons] at h
    by_cases hpk : p.1 = k
    · subst hpk
      unfold mapSet keysNodup
      simp only [if_true, List.map_cons, List.nodup_cons]
      exact h
    · unfold mapSet keysNodup
      simp only [hpk, if_false, List.map_cons, List.nodup_cons]
      refine ⟨?_, ih h.2⟩
      intro hmem
      rcases mem_keys_mapSet hmem with h2 | h2
      · exact h.1 h2
      · exact hpk h2

theorem keysNodup_of_sublist {κ β : Type} {m1 m2 : List (κ × β)} (hs : m1.Sublist m2)
    (h : keysNodup m2) : keysNodup m1 :=
  List.Nodup.sublist (hs.map Prod.fst) h

theorem mapDelete_not_mem {κ β : Type} [DecidableEq κ] {m : List (κ × β)} {k : κ}
    (h : k ∉ m.map Prod.fst) : mapDelete m k = m := by
  refine List.filter_eq_self.mpr (fun p hp => ?_)
  refine decide_eq_true (fun he => h ?_)
  exact List.mem_map.mpr ⟨p, hp, he⟩

theorem mapDelete_cons_self {κ β : Type} [DecidableEq κ] (k : κ) (e : β)
    (rest : List (κ × β)) (h : k ∉ rest.map Prod.fst) :
    mapDelete ((k, e) :: rest) k = rest := by
  unfold mapDelete
  rw [List.filter_cons]
  have hd : decide ((k, e).1 ≠ k) = false := by simp
  rw [hd]
  simp only [Bool.false_eq_true, if_false]
  exact mapDelete_not_mem h

theorem evictOversize_sublist {κ α : Type} [DecidableEq κ]
    (c : List (κ × CacheEntry κ α)) : (evictOversize c).Sublist c := by
  unfold evictOversize
  by_cases h : MAX_CACHE_ENTRIES < c.length
  · simp only [h, if_true]
    cases c with
    | nil => exact List.Sublist.refl _
    | cons q rest => exact List.filter_sublist _
  · simp [h]

theorem evictOversize_eq_self {κ α : Type} [DecidableEq κ]
    {c : List (κ × CacheEntry κ α)} (h : ¬ MAX_CACHE_ENTRIES < c.length) :
    evictOversize c = c := by
  unfold evictOversize
  simp [h]

theorem evictOversize_length_lt {κ α : Type} [DecidableEq κ]
    {c : List (κ × CacheEntry κ α)} (h : MAX_CACHE_ENTRIES < c.length) :
    (evictOversize c).length + 1 ≤ c.length := by
  unfold evictOversize
  simp only [h, if_true]
  cases c with
  | nil => simp at h
  | cons q rest =>
    obtain ⟨k1, e1⟩ := q
    show (mapDelete ((k1, e1) :: rest) k1).length + 1 ≤ ((k1, e1) :: rest).length
    unfold mapDelete
    rw [List.filter_cons]
    have hd : decide ((k1, e1).1 ≠ k1) = false := by simp
    rw [hd]
    simp only [Bool.false_eq_true, if_false, List.length_cons]
    have := List.length_filter_le (fun p => decide (p.1 ≠ k1)) rest
    omega

theorem evictOversize_tail {κ α : Type} [DecidableEq κ]
    {c : List (κ × CacheEntry κ α)} (hnodup : keysNodup c)
    (h : MAX_CACHE_ENTRIES < c.length) : evictOversize c = c.tail := by
  unfold evictOversize
  simp only [h, if_true]
  cases c with
  | nil => rfl
  | cons q rest =>
    obtain ⟨k1, e1⟩ := q
    show mapDelete ((k1, e1) :: rest) k1 = rest
    unfold keysNodup at hnodup
    simp only [List.map_cons, List.nodup_cons] at hnodup
    exact mapDelete_cons_self k1 e1 rest hnodup.1

set_option maxRecDepth 200000

/-- Inserting 201 distinct fresh Nat keys 1..201 into an empty cache, one set
after another at time 0. -/
def insert201 : List (Nat × CacheEntry Nat Nat) :=
  (List.range 201).foldl (fun c i => setCached c 0 (i + 1) i CACHE_TTL) []

/-- C3: every set leaves no entry whose age exceeds its own ttl; a set on a
cache within the 200-entry cap leaves at most 200 entries; when the swept
cache exceeds the cap, exactly its first (oldest-inserted) entry is dropped;
and 201 consecutive inserts of distinct fresh keys 1..201 leave exactly keys
2 through 201, in insertion order. -/
theorem claim_C3_capacity_eviction :
    (∀ (κ α : Type) (_i : DecidableEq κ) (cache : List (κ × CacheEntry κ α)) (now : Nat)
      (k : κ) (v : α) (ttl : Nat) (p : κ × CacheEntry κ α),
      p ∈ setCached cache now k v ttl → now - p.2.timestamp ≤ p.2.ttl) ∧
    (∀ (κ α : Type) (_i : DecidableEq κ) (cache : List (κ × CacheEntry κ α)) (now : Nat)
      (k : κ) (v : α) (ttl : Nat), cache.length ≤ MAX_CACHE_ENTRIES →
      (setCached cache now k v ttl).length ≤ MAX_CACHE_ENTRIES) ∧
    (∀ (κ α : Type) (_i : DecidableEq κ) (cache : List (κ × CacheEntry κ α)) (now : Nat)
      (k : κ) (v : α) (ttl : Nat), keysNodup cache →
      MAX_CACHE_ENTRIES < (cleanCache (mapSet cache k ⟨k, v, now, ttl⟩) now).length →
      setCached cache now k v ttl = (cleanCache (mapSet cache k ⟨k, v, now, ttl⟩) now).tail) ∧
    (insert201.map Prod.fst = (List.range 200).map (fun i => i + 2) ∧
      insert201.length = 200) := by
  refine ⟨?_, ?_, ?_, by decide, by decide⟩
  · intro κ α _i cache now k v ttl p hp
    unfold setCached at hp
    have hp2 : p ∈ cleanCache (mapSet cache k ⟨k, v, now, ttl⟩) now :=
      (evictOversize_sublist _).subset hp
    unfold cleanCache at hp2
    have h3 := (List.mem_filter.mp hp2).2
    exact of_decide_eq_true h3
  · intro κ α _i cache now k v ttl hcap
    unfold setCached
    have h1 : (mapSet cache k ⟨k, v, now, ttl⟩).length ≤ cache.length + 1 :=
      mapSet_length cache k ⟨k, v, now, ttl⟩
    have h2 : (cleanCache (mapSet cache k ⟨k, v, now, ttl⟩) now).length ≤
        (mapSet cache k ⟨k, v, now, ttl⟩).length := List.length_filter_le _ _
    by_cases hlen :
        MAX_CACHE_ENTRIES < (cleanCache (mapSet cache k ⟨k, v, now, ttl⟩) now).length
    · have := evictOversize_length_lt hlen
      omega
    · rw [evictOversize_eq_self hlen]
      exact Nat.le_of_not_lt hlen
  · intro κ α _i cache now k v ttl hnodup hlen
    unfold setCached
    have hnodup2 : keysNodup (cleanCache (mapSet cache k ⟨k, v, now, ttl⟩) now) :=
      keysNodup_of_sublist (List.filter_sublist _) (keysNodup_mapSet k ⟨k, v, now, ttl⟩ hnodup)
    exact evictOversize_tail hnodup2 hlen

/-- A full cache: 200 fresh entries under keys 0..199. -/
def cache200 : List (Nat × CacheEntry Nat Nat) :=
  (List.range 200).map (fun i => (i, ⟨i, 0, 0, CACHE_TTL⟩))

/-- An overfull cache: 201 fresh entries under keys 0..200. -/
def cache201 : List (Nat × CacheEntry Nat Nat) :=
  (List.range 201).map (fun i => (i, ⟨i, 0, 0, CACHE_TTL⟩))

/-- C3 witness: a set on a full 200-entry cache stays within the cap, and a
set that overfills a fresh 201-entry cache drops exactly the head (oldest)
entry of the swept list. -/
theorem claim_C3_capacity_eviction_witness :
    (setCached cache200 0 500 7 CACHE_TTL).length ≤ MAX_CACHE_ENTRIES ∧
    setCached cache201 0 500 7 CACHE_TTL =
      (cleanCache (mapSet cache201 500 ⟨500, 7, 0, CACHE_TTL⟩) 0).tail := by
  constructor
  · exact claim_C3_capacity_eviction.2.1 Nat Nat inferInstance cache200 0 500 7 CACHE_TTL
      (by decide)
  · exact claim_C3_capacity_eviction.2.2.1 Nat Nat inferInstance cache201 0 500 7 CACHE_TTL
      (by unfold keysNodup; decide) (by decide)

deriving instance DecidableEq for Except

/-! ## C1: idempotent caching -/

/-- C1: for every operation, if a call committed its returned value to the
cache under its own key (a successful call), then a later identical call that
still finds that entry (no intervening eviction) within its ttl returns the
same value and leaves the whole service state — including the outbound-call
counter — untouched, for any transport behavior whatsoever. -/
theorem claim_C1_idempotent_caching :
    ∀ (c : OpCall) (st : SvcState) (now1 : Nat) (o : Oracle) (v : CacheValue)
      (st1 : SvcState) (e : CacheEntry String CacheValue) (st2 : SvcState) (now2 : Nat)
      (o2 : Oracle),
      runOp c st now1 o = (Except.ok v, st1) →
      mapGet st1.cache (opKey c) = some e → e.result = v → v.truthy = true →
      mapGet st2.cache (opKey c) = some e → now2 - e.timestamp ≤ e.ttl →
      runOp c st2 now2 o2 = (Except.ok v, st2) := by
  intro c st now1 o v st1 e st2 now2 o2 hrun hcached hres htr hget hage
  subst hres
  cases c with
  | queryOp i opts =>
    simp only [opKey] at hget
    simp only [runOp, runQuery]
    rw [getCached_hit hget hage]
    simp [htr]
  | shortOp i =>
    simp only [opKey] at hget
    simp only [runOp, runShort]
    rw [getCached_hit hget hage]
    simp [htr]
  | spokenOp i =>
    simp only [opKey] at hget
    simp only [runOp, runSpoken]
    rw [getCached_hit hget hage]
    simp [htr]
  | simpleOp i =>
    simp only [opKey] at hget
    simp only [runOp, runSimple]
    rw [getCached_hit hget hage]
    simp [htr]
  | solveOp eqn =>
    simp only [opKey] at hget
    simp only [runOp, runSolve]
    rw [getCached_hit hget hage]
    simp [htr]
  | stepsOp p =>
    simp only [opKey] at hget
    simp only [runOp, runSteps]
    rw [getCached_hit hget hage]
    simp [htr]
  | factsOp t =>
    simp only [opKey] at hget
    simp only [runOp, runFacts]
    rw [getCached_hit hget hage]
    simp [htr]
  | analyzeOp d =>
    simp only [opKey] at hget
    simp only [runOp, runAnalyze]
    rw [getCached_hit hget hage]
    simp [htr]

/-- A transport that answers the short-answer endpoint and fails the rest. -/
def oracleShort : Oracle :=
  ⟨fun _ => .err ⟨none, "unused"⟩, fun _ => .ok "4", fun _ => .err ⟨none, "unused"⟩,
    fun _ => .err ⟨none, "unused"⟩, fun _ => .err ⟨none, "unused"⟩⟩

/-- The entry the first short-answer call writes. -/
def c1Entry : CacheEntry String CacheValue :=
  ⟨"short:2+2", CacheValue.shortRes ⟨"4", true, none⟩, 0, CACHE_TTL⟩

/-- The service state after the first short-answer call. -/
def c1St1 : SvcState :=
  ⟨[("short:2+2", c1Entry)], [], 1⟩

/-- C1 witness: after a successful short-answer call at time 0, repeating it
at time 100 returns the same value and leaves the state (and the call
counter 1) unchanged. -/
theorem claim_C1_idempotent_caching_witness :
    runOp (.shortOp "2+2") c1St1 100 oracleShort =
      (Except.ok (CacheValue.shortRes ⟨"4", true, none⟩), c1St1) :=
  claim_C1_idempotent_caching (.shortOp "2+2") ⟨[], [], 0⟩ 0 oracleShort
    (CacheValue.shortRes ⟨"4", true, none⟩) c1St1 c1Entry c1St1 100 oracleShort
    (by decide) (by decide) (by decide) (by decide) (by decide) (by decide)

/-! ## C4: cache keys -/

theorem stringAppend_left_cancel {a s t : String} (h : a ++ s = a ++ t) : s = t := by
  apply String.ext
  have h2 := congrArg String.data h
  simp only [String.data_append] at h2
  exact List.append_cancel_left h2

/-- An options object listing units before podstate. -/
def optsA : List (String × String) :=
  [("units", "metric"), ("podstate", "Step-by-step solution")]

/-- The same two option fields in the opposite order. -/
def optsB : List (String × String) :=
  [("podstate", "Step-by-step solution"), ("units", "metric")]

/-- C4 counterexample: two semantically identical options objects — the same
fields as a set, listed in different orders — produce different cache keys,
because the key embeds JSON.stringify of the options as given. -/
theorem claim_C4_counterexample :
    List.Perm optsA optsB ∧ queryCacheKey "2+2" optsA ≠ queryCacheKey "2+2" optsB := by
  constructor
  · decide
  · decide

/-- C4 (amended): the query cache key is a deterministic function of the
operation name, the raw input, and the JSON serialization of the options
object as passed: equal serializations give equal keys, and different
serializations (for instance the same fields in a different order, or a
default supplied explicitly versus omitted) give different keys. -/
theorem claim_C4_cache_key :
    (∀ (input : String) (o1 o2 : List (String × String)),
      jsonStringifyOpts o1 = jsonStringifyOpts o2 →
      queryCacheKey input o1 = queryCacheKey input o2) ∧
    (∀ (input : String) (o1 o2 : List (String × String)),
      jsonStringifyOpts o1 ≠ jsonStringifyOpts o2 →
      queryCacheKey input o1 ≠ queryCacheKey input o2) := by
  constructor
  · intro input o1 o2 h
    unfold queryCacheKey
    rw [h]
  · intro input o1 o2 h hk
    unfold queryCacheKey at hk
    exact h (stringAppend_left_cancel hk)

/-- C4 witness: equal serializations collide; the explicit default versus the
empty options object do not. -/
theorem claim_C4_cache_key_witness :
    queryCacheKey "2+2" [("units", "metric")] = queryCacheKey "2+2" [("units", "metric")] ∧
    queryCacheKey "2+2" [("units", "metric")] ≠ queryCacheKey "2+2" [] := by
  constructor
  · exact claim_C4_cache_key.1 "2+2" [("units", "metric")] [("units", "metric")] rfl
  · exact claim_C4_cache_key.2 "2+2" [("units", "metric")] [] (by decide)

/-! ## C7: conversational continuity -/

theorem mapGet_mapSet_self {κ β : Type} [DecidableEq κ] (m : List (κ × β)) (k : κ) (v : β) :
    mapGet (mapSet m k v) k = some v := by
  induction m with
  | nil => simp [mapSet, mapGet]
  | cons p rest ih =>
    by_cases h : p.1 = k
    · unfold mapSet
      simp [h, mapGet]
    · unfold mapSet
      simp only [h, if_false]
      unfold mapGet
      simp [h, ih]

theorem mapGet_mapDelete_self {κ β : Type} [DecidableEq κ] (m : List (κ × β)) (k : κ) :
    mapGet (mapDelete m k) k = none := by
  induction m with
  | nil => rfl
  | cons p rest ih =>
    unfold mapDelete at ih ⊢
    rw [List.filter_cons]
    by_cases h : p.1 = k
    · have hd : (decide (p.1 ≠ k)) = false := by simp [h]
      rw [hd, if_neg Bool.false_ne_true]
      exact ih
    · have hd : (decide (p.1 ≠ k)) = true := decide_eq_true h
      rw [hd, if_pos rfl]
      unfold mapGet
      rw [if_neg h]
      exact ih

/-- The conversationID parameter a conversational call sends is exactly the
truthy stored handle. -/
theorem runConv_params_conversationID (st : SvcState) (input userId : String) (mc : Nat)
    (o : Oracle) :
    ((runConv st input userId mc o).2.2).conversationID =
      (match mapGet st.conversationCache userId with
        | some c => if c = "" then none else some c
        | none => none) := by
  simp only [runConv]
  split <;> rfl

/-- A successful conversational response with a truthy conversation id leaves
that id stored for the user. -/
theorem runConv_stores {st : SvcState} {input userId : String} {mc : Nat} {o : Oracle}
    {r : WolframConversationResult} {st3 : SvcState} {p : ConvParams}
    (hrun : runConv st input userId mc o = (Except.ok r, st3, p))
    (hcid : r.conversationID ≠ "") :
    mapGet st3.conversationCache userId = some r.conversationID := by
  simp only [runConv] at hrun
  cases hres : (getWithRetry o.onConv 2 st.calls).1 with
  | error e =>
    rw [hres] at hrun
    simp at hrun
  | ok result =>
    rw [hres] at hrun
    simp only [Prod.mk.injEq, Except.ok.injEq] at hrun
    obtain ⟨h1, h2, _⟩ := hrun
    subst h1
    subst h2
    rw [if_neg hcid]
    exact mapGet_mapSet_self _ userId _

/-- A conversational call can only extend or overwrite the per-user handle
map, so distinct keys stay distinct. -/
theorem runConv_nodup (st : SvcState) (input userId : String) (mc : Nat) (o : Oracle)
    (h : keysNodup st.conversationCache) :
    keysNodup ((runConv st input userId mc o).2.1).conversationCache := by
  simp only [runConv]
  cases hres : (getWithRetry o.onConv 2 st.calls).1 with
  | error e =>
    simp only [hres]
    exact h
  | ok result =>
    by_cases hc : result.conversationID = ""
    · simp only [hres, hc, if_true]
      exact h
    · simp only [hres, hc, if_false]
      exact keysNodup_mapSet userId result.conversationID h

/-- C7: a conversational call sends the stored handle as its conversationID
parameter when one exists and omits the parameter when none exists; a
successful response carrying a conversation id overwrites the stored handle
(and the handle map keeps at most one binding per user); after clearing a
user, the next call omits the parameter; and when the first response carries
conv-123, the second call for the same user sends conversationID=conv-123. -/
theorem claim_C7_conversation_continuity :
    (∀ (st : SvcState) (input userId : String) (mc : Nat) (o : Oracle) (c : String),
      mapGet st.conversationCache userId = some c → c ≠ "" →
      ((runConv st input userId mc o).2.2).conversationID = some c) ∧
    (∀ (st : SvcState) (input userId : String) (mc : Nat) (o : Oracle),
      mapGet st.conversationCache userId = none →
      ((runConv st input userId mc o).2.2).conversationID = none) ∧
    (∀ (st : SvcState) (input userId : String) (mc : Nat) (o : Oracle)
      (r : WolframConversationResult) (st3 : SvcState) (p : ConvParams),
      runConv st input userId mc o = (Except.ok r, st3, p) → r.conversationID ≠ "" →
      mapGet st3.conversationCache userId = some r.conversationID) ∧
    (∀ (st : SvcState) (input userId : String) (mc : Nat) (o : Oracle),
      keysNodup st.conversationCache →
      keysNodup ((runConv st input userId mc o).2.1).conversationCache) ∧
    (∀ (st : SvcState) (userId input : String) (mc : Nat) (o : Oracle),
      ((runConv (clearConversation st userId) input userId mc o).2.2).conversationID = none) ∧
    (∀ (st : SvcState) (input input2 userId : String) (mc : Nat) (o o2 : Oracle)
      (r : WolframConversationResult) (st1 : SvcState) (p1 : ConvParams),
      runConv st input userId mc o = (Except.ok r, st1, p1) →
      r.conversationID = "conv-123" →
      ((runConv st1 input2 userId mc o2).2.2).conversationID = some "conv-123") := by
  refine ⟨?_, ?_, ?_, ?_, ?_, ?_⟩
  · intro st input userId mc o c hc hcne
    rw [runConv_params_conversationID]
    rw [hc]
    simp [hcne]
  · intro st input userId mc o hc
    rw [runConv_params_conversationID]
    rw [hc]
  · intro st input userId mc o r st3 p hrun hcid
    exact runConv_stores hrun hcid
  · intro st input userId mc o h
    exact runConv_nodup st input userId mc o h
  · intro st userId input mc o
    rw [runConv_params_conversationID]
    have : mapGet (clearConversation st userId).conversationCache userId = none :=
      mapGet_mapDelete_self st.conversationCache userId
    rw [this]
  · intro st input input2 userId mc o o2 r st1 p1 hrun hcid
    have hne : r.conversationID ≠ "" := by
      rw [hcid]
      decide
    have hstore := runConv_stores hrun hne
    rw [hcid] at hstore
    rw [runConv_params_conversationID]
    rw [hstore]
    decide

/-- A transport whose conversational endpoint always answers with handle
conv-123. -/
def oracleConv : Oracle :=
  ⟨fun _ => .err ⟨none, "unused"⟩, fun _ => .err ⟨none, "unused"⟩,
    fun _ => .err ⟨none, "unused"⟩, fun _ => .err ⟨none, "unused"⟩,
    fun _ => .ok ⟨"conv-123", "h", "prime numbers", "answer", "", false⟩⟩

/-- A service state holding the handle conv-123 for user u. -/
def c7St : SvcState := ⟨[], [("u", "conv-123")], 0⟩

/-- C7 witness: with conv-123 stored for user u the call sends it; a first
call whose response carries conv-123 makes the follow-up call send
conversationID=conv-123; and after clearConversation the parameter is
omitted. -/
theorem claim_C7_conversation_continuity_witness :
    ((runConv c7St "q" "u" 2000 oracleConv).2.2).conversationID = some "conv-123" ∧
    ((runConv (runConv ⟨[], [], 0⟩ "q" "u" 2000 oracleConv).2.1 "q2" "u" 2000
        oracleConv).2.2).conversationID = some "conv-123" ∧
    ((runConv (clearConversation c7St "u") "q" "u" 2000 oracleConv).2.2).conversationID =
      none := by
  refine ⟨?_, ?_, ?_⟩
  · exact claim_C7_conversation_continuity.1 c7St "q" "u" 2000 oracleConv "conv-123"
      (by decide) (by decide)
  · exact claim_C7_conversation_continuity.2.2.2.2.2 ⟨[], [], 0⟩ "q" "q2" "u" 2000
      oracleConv oracleConv ⟨"conv-123", "h", "prime numbers", "answer", "", false⟩
      (runConv ⟨[], [], 0⟩ "q" "u" 2000 oracleConv).2.1
      (runConv ⟨[], [], 0⟩ "q" "u" 2000 oracleConv).2.2 (by decide) (by decide)
  · exact claim_C7_conversation_continuity.2.2.2.2.1 c7St "u" "q" 2000 oracleConv

/-! ## C8: expired-conversation recovery -/

/-- The empty service state. -/
def emptyState : SvcState := ⟨[], [], 0⟩

/-- A state holding the handle conv-old for user u. -/
def c8St : SvcState := ⟨[], [("u", "conv-old")], 0⟩

/-- A conversational endpoint answering with both an error field and the
expired flag set. -/
def oracleC8err : Oracle :=
  ⟨fun _ => .err ⟨none, "unused"⟩, fun _ => .err ⟨none, "unused"⟩,
    fun _ => .err ⟨none, "unused"⟩, fun _ => .err ⟨none, "unused"⟩,
    fun _ => .ok ⟨"conv-old", "h", "", "", "boom", true⟩⟩

/-- C8 counterexample: a response that reports the conversation as expired
but also carries an error field triggers no recovery at all — the handler
checks the error first, issues no second call, and leaves the stored handle
in place, contradicting the claim that every expired response causes a
clear-and-reissue. -/
theorem claim_C8_counterexample :
    oracleC8err.onConv 0 = .ok ⟨"conv-old", "h", "", "", "boom", true⟩ ∧
    (convHandler c8St "q" "u" oracleC8err).sent.length = 1 ∧
    (convHandler c8St "q" "u" oracleC8err).state.calls = 1 ∧
    mapGet (convHandler c8St "q" "u" oracleC8err).state.conversationCache "u" =
      some "conv-old" ∧
    (convHandler c8St "q" "u" oracleC8err).output.error = true := by
  refine ⟨rfl, by decide, by decide, by decide, by decide⟩

/-- C8 (amended): the handler never issues more than two conversational
calls; when the first response is ok, reports expired, and carries no error,
the handler clears the stored handle and reissues exactly once — the reissued
request carries no conversationID — and surfaces whatever that single reissue
returns (with no further recovery, whatever its expired flag); a first
response that is ok and not expired (with no error) triggers no recovery and
is surfaced directly. -/
theorem claim_C8_expired_recovery :
    (∀ (st : SvcState) (input userId : String) (o : Oracle),
      (convHandler st input userId o).sent.length ≤ 2) ∧
    (∀ (st : SvcState) (input userId : String) (o : Oracle)
      (r : WolframConversationResult) (st1 : SvcState) (p1 : ConvParams),
      runConv st input userId 2000 o = (Except.ok r, st1, p1) → r.error = "" →
      r.expired = true →
      (convHandler st input userId o).sent =
        [p1, (runConv (clearConversation st1 userId) input userId 2000 o).2.2] ∧
      ((runConv (clearConversation st1 userId) input userId 2000 o).2.2).conversationID =
        none ∧
      (∀ (rr : WolframConversationResult) (st3 : SvcState) (p2 : ConvParams),
        runConv (clearConversation st1 userId) input userId 2000 o =
          (Except.ok rr, st3, p2) →
        convHandler st input userId o =
          ⟨⟨firstTruthyOr rr.result rr.s "No response available.", false, true⟩, true, st3,
            [p1, p2]⟩)) ∧
    (∀ (st : SvcState) (input userId : String) (o : Oracle)
      (r : WolframConversationResult) (st1 : SvcState) (p1 : ConvParams),
      runConv st input userId 2000 o = (Except.ok r, st1, p1) → r.error = "" →
      r.expired = false →
      convHandler st input userId o =
        ⟨⟨firstTruthyOr r.result r.s "No response available.", false, false⟩, true, st1,
          [p1]⟩) := by
  refine ⟨?_, ?_, ?_⟩
  · intro st input userId o
    simp only [convHandler]
    cases hres : (runConv st input userId 2000 o).1 with
    | error msg => simp
    | ok result =>
      by_cases herr : result.error = ""
      · by_cases hexp : result.expired
        · cases hres2 : (runConv (clearConversation (runConv st input userId 2000 o).2.1
              userId) input userId 2000 o).1 with
          | error m2 => simp [herr, hexp, hres2]
          | ok rr => simp [herr, hexp, hres2]
        · simp [herr, hexp]
      · simp [herr]
  · intro st input userId o r st1 p1 hrun herr hexp
    have hcu : (convHandler st input userId o) =
        (match (runConv (clearConversation st1 userId) input userId 2000 o).1 with
          | .error msg =>
            (⟨⟨"Failed to process conversational query: " ++ msg, true, false⟩, false,
              (runConv (clearConversation st1 userId) input userId 2000 o).2.1,
              [p1, (runConv (clearConversation st1 userId) input userId 2000 o).2.2]⟩ :
                HandlerRun)
          | .ok rr =>
            ⟨⟨firstTruthyOr rr.result rr.s "No response available.", false, true⟩, true,
              (runConv (clearConversation st1 userId) input userId 2000 o).2.1,
              [p1, (runConv (clearConversation st1 userId) input userId 2000 o).2.2]⟩) := by
      simp only [convHandler, hrun, herr, hexp]
      simp
    refine ⟨?_, ?_, ?_⟩
    · rw [hcu]
      cases hres2 : (runConv (clearConversation st1 userId) input userId 2000 o).1 <;>
        simp [hres2]
    · rw [runConv_params_conversationID]
      have : mapGet (clearConversation st1 userId).conversationCache userId = none :=
        mapGet_mapDelete_self st1.conversationCache userId
      rw [this]
    · intro rr st3 p2 hrun2
      rw [hcu, hrun2]
  · intro st input userId o r st1 p1 hrun herr hexp
    simp only [convHandler, hrun, herr, hexp]
    simp

/-- A conversational endpoint whose first answer is an expired marker with no
error and whose second answer opens a fresh thread. -/
def oracleC8exp : Oracle :=
  ⟨fun _ => .err ⟨none, "unused"⟩, fun _ => .err ⟨none, "unused"⟩,
    fun _ => .err ⟨none, "unused"⟩, fun _ => .err ⟨none, "unused"⟩,
    fun n => if n = 0 then .ok ⟨"conv-old", "h", "", "", "", true⟩
      else .ok ⟨"conv-new", "h", "spoken text", "fresh answer", "", false⟩⟩

/-- C8 witness: on a clean expired response the handler sends exactly two
requests, the second without a conversationID, and surfaces the reissued
answer as a new conversation. -/
theorem claim_C8_expired_recovery_witness :
    (convHandler c8St "q" "u" oracleC8exp).sent =
      [⟨"q", 2000, some "conv-old"⟩,
        (runConv (clearConversation ⟨[], [("u", "conv-old")], 1⟩ "u") "q" "u" 2000
          oracleC8exp).2.2] ∧
    ((runConv (clearConversation ⟨[], [("u", "conv-old")], 1⟩ "u") "q" "u" 2000
        oracleC8exp).2.2).conversationID = none := by
  have h := claim_C8_expired_recovery.2.1 c8St "q" "u" oracleC8exp
    ⟨"conv-old", "h", "", "", "", true⟩ ⟨[], [("u", "conv-old")], 1⟩
    ⟨"q", 2000, some "conv-old"⟩ (by decide) (by decide) (by decide)
  exact ⟨h.1, h.2.1⟩

/-! ## C10: no-throw asymmetry -/

theorem getCached_miss {κ α : Type} [DecidableEq κ] {cache : List (κ × CacheEntry κ α)}
    {now : Nat} {key : κ} (h : mapGet cache key = none) :
    getCached cache now key = (none, cache) := by
  unfold getCached
  rw [h]

theorem runShortFetch_ne_error (st : SvcState) (now : Nat) (key : String) (o : Oracle)
    (msg : String) : (runShortFetch st now key o).1 ≠ Except.error msg := by
  simp only [runShortFetch]
  cases hr : (getWithRetry o.onShort 2 st.calls).1 <;> simp [hr]

theorem runSpokenFetch_ne_error (st : SvcState) (now : Nat) (key : String) (o : Oracle)
    (msg : String) : (runSpokenFetch st now key o).1 ≠ Except.error msg := by
  simp only [runSpokenFetch]
  cases hr : (getWithRetry o.onSpoken 2 st.calls).1 <;> simp [hr]

theorem runShort_ne_error (st : SvcState) (now : Nat) (input : String) (o : Oracle)
    (msg : String) : (runShort st now input o).1 ≠ Except.error msg := by
  simp only [runShort]
  cases hhit : (getCached st.cache now ("short:" ++ input)).1 with
  | none =>
    simp only [hhit]
    exact runShortFetch_ne_error _ now _ o msg
  | some v =>
    by_cases htr : v.truthy
    · simp [hhit, htr]
    · simp only [hhit, htr, Bool.false_eq_true, if_false]
      exact runShortFetch_ne_error _ now _ o msg

theorem runSpoken_ne_error (st : SvcState) (now : Nat) (input : String) (o : Oracle)
    (msg : String) : (runSpoken st now input o).1 ≠ Except.error msg := by
  simp only [runSpoken]
  cases hhit : (getCached st.cache now ("spoken:" ++ input)).1 with
  | none =>
    simp only [hhit]
    exact runSpokenFetch_ne_error _ now _ o msg
  | some v =>
    by_cases htr : v.truthy
    · simp [hhit, htr]
    · simp only [hhit, htr, Bool.false_eq_true, if_false]
      exact runSpokenFetch_ne_error _ now _ o msg

/-- C10: getShortAnswer and getSpokenAnswer never throw — a transport failure
(immediate or after retry exhaustion) is swallowed into a success-false value
with an empty answer and the error message attached — while query,
getSimpleAnswer, and conversationalQuery surface the same transport failure
by throwing a wrapped error. -/
theorem claim_C10_no_throw_asymmetry :
    (∀ (st : SvcState) (now : Nat) (input : String) (o : Oracle) (msg : String),
      (runShort st now input o).1 ≠ Except.error msg) ∧
    (∀ (st : SvcState) (now : Nat) (input : String) (o : Oracle) (msg : String),
      (runSpoken st now input o).1 ≠ Except.error msg) ∧
    (∀ (st : SvcState) (now : Nat) (input : String) (o : Oracle) (e : HttpErr),
      mapGet st.cache ("short:" ++ input) = none →
      (getWithRetry o.onShort 2 st.calls).1 = Except.error e →
      (runShort st now input o).1 = Except.ok (.shortRes ⟨"", false, some e.msg⟩)) ∧
    (∀ (st : SvcState) (now : Nat) (input : String) (o : Oracle) (e : HttpErr),
      mapGet st.cache ("spoken:" ++ input) = none →
      (getWithRetry o.onSpoken 2 st.calls).1 = Except.error e →
      (runSpoken st now input o).1 = Except.ok (.spokenRes ⟨"", false, some e.msg⟩)) ∧
    (∀ (st : SvcState) (now : Nat) (input : String) (opts : List (String × String))
      (o : Oracle) (e : HttpErr),
      mapGet st.cache (queryCacheKey input opts) = none →
      (getWithRetry o.onQuery 2 st.calls).1 = Except.error e →
      (runQuery st now input opts o).1 =
        Except.error ("Wolfram query failed: " ++ e.msg)) ∧
    (∀ (st : SvcState) (now : Nat) (input : String) (o : Oracle) (e : HttpErr),
      mapGet st.cache ("simple:" ++ input) = none →
      (getWithRetry o.onSimple 2 st.calls).1 = Except.error e →
      (runSimple st now input o).1 =
        Except.error ("Simple answer failed: " ++ e.msg)) ∧
    (∀ (st : SvcState) (input userId : String) (mc : Nat) (o : Oracle) (e : HttpErr),
      (getWithRetry o.onConv 2 st.calls).1 = Except.error e →
      (runConv st input userId mc o).1 =
        Except.error ("Conversational query failed: " ++ e.msg)) := by
  refine ⟨runShort_ne_error, runSpoken_ne_error, ?_, ?_, ?_, ?_, ?_⟩
  · intro st now input o e hmiss hfail
    simp only [runShort, getCached_miss hmiss, runShortFetch]
    rw [hfail]
  · intro st now input o e hmiss hfail
    simp only [runSpoken, getCached_miss hmiss, runSpokenFetch]
    rw [hfail]
  · intro st now input opts o e hmiss hfail
    simp only [runQuery, getCached_miss hmiss, runQueryFetch]
    rw [hfail]
  · intro st now input o e hmiss hfail
    simp only [runSimple, getCached_miss hmiss, runSimpleFetch]
    rw [hfail]
  · intro st input userId mc o e hfail
    simp only [runConv]
    rw [hfail]

/-- A transport failing every endpoint with 404. -/
def oracle404 : Oracle :=
  ⟨fun _ => .err ⟨some 404, "Request failed with status code 404"⟩,
    fun _ => .err ⟨some 404, "Request failed with status code 404"⟩,
    fun _ => .err ⟨some 404, "Request failed with status code 404"⟩,
    fun _ => .err ⟨some 404, "Request failed with status code 404"⟩,
    fun _ => .err ⟨some 404, "Request failed with status code 404"⟩⟩

/-- C10 witness: on a failing transport the short answer comes back as a
success-false value carrying the message while query throws it wrapped. -/
theorem claim_C10_no_throw_asymmetry_witness :
    (runShort emptyState 0 "x" oracle404).1 =
      Except.ok (.shortRes ⟨"", false, some "Request failed with status code 404"⟩) ∧
    (runQuery emptyState 0 "x" [] oracle404).1 =
      Except.error ("Wolfram query failed: " ++ "Request failed with status code 404") := by
  constructor
  · exact claim_C10_no_throw_asymmetry.2.2.1 emptyState 0 "x" oracle404
      ⟨some 404, "Request failed with status code 404"⟩ (by decide) (by decide)
  · exact claim_C10_no_throw_asymmetry.2.2.2.2.1 emptyState 0 "x" [] oracle404
      ⟨some 404, "Request failed with status code 404"⟩ (by decide) (by decide)

/-! ## C6: no caching of unsuccessful results -/

theorem mapGet_eq_none_iff {κ β : Type} [DecidableEq κ] {m : List (κ × β)} {k : κ} :
    mapGet m k = none ↔ ∀ p ∈ m, p.1 ≠ k := by
  induction m with
  | nil => simp [mapGet]
  | cons p rest ih =>
    unfold mapGet
    by_cases h : p.1 = k
    · simp [h]
    · simp [h, ih]

theorem mem_mapSet {κ β : Type} [DecidableEq κ] {m : List (κ × β)} {k : κ} {v : β}
    {p : κ × β} (hp : p ∈ mapSet m k v) : p ∈ m ∨ p = (k, v) := by
  induction m with
  | nil =>
    unfold mapSet at hp
    simp only [List.mem_singleton] at hp
    exact Or.inr hp
  | cons q rest ih =>
    unfold mapSet at hp
    by_cases h : q.1 = k
    · simp only [h, if_true, List.mem_cons] at hp
      rcases hp with hp | hp
      · exact Or.inr hp
      · exact Or.inl (List.mem_cons_of_mem _ hp)
    · simp only [h, if_false, List.mem_cons] at hp
      rcases hp with hp | hp
      · exact Or.inl (by simp [hp])
      · rcases ih hp with h2 | h2
        · exact Or.inl (List.mem_cons_of_mem _ h2)
        · exact Or.inr h2

theorem mapSet_fresh {κ β : Type} [DecidableEq κ] {m : List (κ × β)} {k : κ} (v : β)
    (h : mapGet m k = none) : mapSet m k v = m ++ [(k, v)] := by
  induction m with
  | nil => rfl
  | cons p rest ih =>
    unfold mapGet at h
    by_cases hpk : p.1 = k
    · rw [if_pos hpk] at h
      cases h
    · rw [if_neg hpk] at h
      unfold mapSet
      rw [if_neg hpk, ih h]
      rfl

theorem mapGet_append_self {κ β : Type} [DecidableEq κ] (l : List (κ × β)) (k : κ) (e : β)
    (h : ∀ p ∈ l, p.1 ≠ k) : mapGet (l ++ [(k, e)]) k = some e := by
  induction l with
  | nil => simp [mapGet]
  | cons p rest ih =>
    have hp : p.1 ≠ k := h p (List.mem_cons_self _ _)
    rw [List.cons_append]
    unfold mapGet
    rw [if_neg hp]
    exact ih (fun q hq => h q (List.mem_cons_of_mem _ hq))

/-- A fresh key written through setCached is afterwards readable: the new
entry is appended last, survives the sweep (its age is zero), and is never
the oldest entry chosen by the eviction. -/
theorem setCached_fresh_mapGet {κ α : Type} [DecidableEq κ]
    {cache : List (κ × CacheEntry κ α)} {now : Nat} {key : κ} (v : α) (ttl : Nat)
    (h : mapGet cache key = none) :
    mapGet (setCached cache now key v ttl) key = some ⟨key, v, now, ttl⟩ := by
  have hall : ∀ p ∈ cache, p.1 ≠ key := mapGet_eq_none_iff.mp h
  unfold setCached
  rw [mapSet_fresh ⟨key, v, now, ttl⟩ h]
  unfold cleanCache
  rw [List.filter_append]
  have hkeep : List.filter
      (fun p : κ × CacheEntry κ α => decide (now - p.2.timestamp ≤ p.2.ttl))
      [(key, ⟨key, v, now, ttl⟩)] = [(key, ⟨key, v, now, ttl⟩)] := by
    simp [Nat.sub_self]
  rw [hkeep]
  have hallf : ∀ p ∈ List.filter
      (fun p : κ × CacheEntry κ α => decide (now - p.2.timestamp ≤ p.2.ttl)) cache,
      p.1 ≠ key :=
    fun p hp => hall p (List.mem_of_mem_filter hp)
  unfold evictOversize
  by_cases hbig : MAX_CACHE_ENTRIES < (List.filter
      (fun p : κ × CacheEntry κ α => decide (now - p.2.timestamp ≤ p.2.ttl)) cache ++
      [((key, ⟨key, v, now, ttl⟩) : κ × CacheEntry κ α)]).length
  · rw [if_pos hbig]
    cases hfc : List.filter
        (fun p : κ × CacheEntry κ α => decide (now - p.2.timestamp ≤ p.2.ttl)) cache with
    | nil =>
      rw [hfc] at hbig
      simp [MAX_CACHE_ENTRIES] at hbig
    | cons q t =>
      obtain ⟨k10, e10⟩ := q
      rw [hfc] at hallf
      have hqk : k10 ≠ key := hallf (k10, e10) (List.mem_cons_self _ _)
      show mapGet (mapDelete (((k10, e10) :: t) ++ [(key, ⟨key, v, now, ttl⟩)]) k10) key =
        some ⟨key, v, now, ttl⟩
      unfold mapDelete
      rw [List.filter_append]
      have hkeep2 : List.filter (fun p : κ × CacheEntry κ α => decide (p.1 ≠ k10))
          [(key, ⟨key, v, now, ttl⟩)] = [(key, ⟨key, v, now, ttl⟩)] := by
        have hne : ((key, (⟨key, v, now, ttl⟩ : CacheEntry κ α)).1 ≠ k10) :=
          fun he => hqk he.symm
        simp [hne]
      rw [hkeep2]
      refine mapGet_append_self _ key _ ?_
      intro p hp
      exact hallf p (List.mem_of_mem_filter hp)
  · rw [if_neg hbig]
    exact mapGet_append_self _ key _ hallf

/-- setCached under one key never creates a binding for a different key. -/
theorem setCached_preserves_none {κ α : Type} [DecidableEq κ]
    {cache : List (κ × CacheEntry κ α)} {now : Nat} {kq kf : κ} (v : α) (ttl : Nat)
    (h : mapGet cache kf = none) (hne : kq ≠ kf) :
    mapGet (setCached cache now kq v ttl) kf = none := by
  refine mapGet_eq_none_iff.mpr (fun p hp => ?_)
  have hp2 : p ∈ cleanCache (mapSet cache kq ⟨kq, v, now, ttl⟩) now :=
    (evictOversize_sublist _).subset hp
  have hp3 : p ∈ mapSet cache kq ⟨kq, v, now, ttl⟩ := List.mem_of_mem_filter hp2
  rcases mem_mapSet hp3 with h4 | h4
  · exact mapGet_eq_none_iff.mp h p h4
  · rw [h4]
    exact hne

theorem runQueryFetch_error_cache {st : SvcState} {now : Nat} {key : String} {o : Oracle}
    {msg : String} (h : (runQueryFetch st now key o).1 = Except.error msg) :
    ((runQueryFetch st now key o).2).cache = st.cache := by
  revert h
  simp only [runQueryFetch]
  cases hr : (getWithRetry o.onQuery 2 st.calls).1 with
  | error e => intro _; rfl
  | ok result =>
    by_cases hs : result.success
    · simp [hs]
    · simp [hs]

theorem runQueryFetch_unsuccessful_cache {st : SvcState} {now : Nat} {key : String}
    {o : Oracle} {r : WolframAlphaQueryResult}
    (h : (runQueryFetch st now key o).1 = Except.ok (.queryRes r))
    (hs : r.success = false) : ((runQueryFetch st now key o).2).cache = st.cache := by
  revert h
  simp only [runQueryFetch]
  cases hr : (getWithRetry o.onQuery 2 st.calls).1 with
  | error e => simp
  | ok result =>
    by_cases hs2 : result.success
    · simp only [hs2, if_true, Prod.fst, Except.ok.injEq, CacheValue.queryRes.injEq]
      intro h
      rw [h] at hs2
      rw [hs] at hs2
      cases hs2
    · simp [hs2]

theorem runSimpleFetch_error_cache {st : SvcState} {now : Nat} {key : String} {o : Oracle}
    {msg : String} (h : (runSimpleFetch st now key o).1 = Except.error msg) :
    ((runSimpleFetch st now key o).2).cache = st.cache := by
  revert h
  simp only [runSimpleFetch]
  cases hr : (getWithRetry o.onSimple 2 st.calls).1 with
  | error e => intro _; rfl
  | ok b64 => simp

/-- A failed (thrown) query leaves the cache a sublist of what it was: no
entry is added or changed, at most lazily expired ones are removed. -/
theorem runQuery_error_sublist {st : SvcState} {now : Nat} {input : String}
    {opts : List (String × String)} {o : Oracle} {msg : String}
    (h : (runQuery st now input opts o).1 = Except.error msg) :
    ((runQuery st now input opts o).2).cache.Sublist st.cache := by
  have hsub := getCached_snd_sublist st.cache now (queryCacheKey input opts)
  revert h
  simp only [runQuery]
  cases hhit : (getCached st.cache now (queryCacheKey input opts)).1 with
  | some v =>
    by_cases htr : v.truthy
    · simp [htr]
    · simp only [htr, Bool.false_eq_true, if_false]
      intro h
      rw [runQueryFetch_error_cache h]
      exact hsub
  | none =>
    intro h
    rw [runQueryFetch_error_cache h]
    exact hsub

/-- A query answered with success: false leaves the cache a sublist of what
it was. -/
theorem runQuery_unsuccessful_sublist {st : SvcState} {now : Nat} {input : String}
    {opts : List (String × String)} {o : Oracle} {r : WolframAlphaQueryResult}
    (h : (runQuery st now input opts o).1 = Except.ok (.queryRes r))
    (hs : r.success = false) : ((runQuery st now input opts o).2).cache.Sublist st.cache := by
  have hsub := getCached_snd_sublist st.cache now (queryCacheKey input opts)
  revert h
  simp only [runQuery]
  cases hhit : (getCached st.cache now (queryCacheKey input opts)).1 with
  | some v =>
    by_cases htr : v.truthy
    · simp only [htr, if_true]
      intro _
      exact hsub
    · simp only [htr, Bool.false_eq_true, if_false]
      intro h
      rw [runQueryFetch_unsuccessful_cache h hs]
      exact hsub
  | none =>
    intro h
    rw [runQueryFetch_unsuccessful_cache h hs]
    exact hsub

theorem runSolveBody_error_sublist {st : SvcState} {now : Nat} {key eqn : String}
    {o : Oracle} {msg : String} (h : (runSolveBody st now key eqn o).1 = Except.error msg) :
    ((runSolveBody st now key eqn o).2).cache.Sublist st.cache := by
  revert h
  simp only [runSolveBody]
  cases hq : (runQuery st now ("solve " ++ eqn) [] o).1 with
  | error m =>
    intro _
    exact runQuery_error_sublist hq
  | ok v =>
    cases hv : v.asQuery with
    | none => simp [hv]
    | some result =>
      by_cases hc : result.success = false ∨ result.pods = none
      · simp [hv, hc]
      · cases hfind : findSolutionPod (result.pods.getD []) with
        | none => simp [hv, hc, hfind]
        | some pod =>
          cases hsub : pod.subpods with
          | none => simp [hv, hc, hfind, hsub]
          | some l =>
            cases l with
            | nil => simp [hv, hc, hfind, hsub]
            | cons sp rest => simp [hv, hc, hfind, hsub]

theorem runStepsBody_error_sublist {st : SvcState} {now : Nat} {key pb : String}
    {o : Oracle} {msg : String} (h : (runStepsBody st now key pb o).1 = Except.error msg) :
    ((runStepsBody st now key pb o).2).cache.Sublist st.cache := by
  revert h
  simp only [runStepsBody]
  cases hq : (runQuery st now pb [("podstate", "Step-by-step solution")] o).1 with
  | error m =>
    intro _
    exact runQuery_error_sublist hq
  | ok v =>
    cases hv : v.asQuery with
    | none => simp [hv]
    | some result =>
      by_cases hc : result.success = false ∨ result.pods = none
      · simp [hv, hc]
      · simp [hv, hc]

theorem runFactsBody_error_sublist {st : SvcState} {now : Nat} {key tp : String}
    {o : Oracle} {msg : String} (h : (runFactsBody st now key tp o).1 = Except.error msg) :
    ((runFactsBody st now key tp o).2).cache.Sublist st.cache := by
  revert h
  simp only [runFactsBody]
  cases hq : (runQuery st now tp [] o).1 with
  | error m =>
    intro _
    exact runQuery_error_sublist hq
  | ok v =>
    cases hv : v.asQuery with
    | none => simp [hv]
    | some result =>
      by_cases hc : result.success = false ∨ result.pods = none
      · simp [hv, hc]
      · simp [hv, hc]

theorem runAnalyzeBody_error_sublist {st : SvcState} {now : Nat} {key dt : String}
    {o : Oracle} {msg : String}
    (h : (runAnalyzeBody st now key dt o).1 = Except.error msg) :
    ((runAnalyzeBody st now key dt o).2).cache.Sublist st.cache := by
  revert h
  simp only [runAnalyzeBody]
  cases hq : (runQuery st now ("statistics " ++ dt) [] o).1 with
  | error m =>
    intro _
    exact runQuery_error_sublist hq
  | ok v =>
    cases hv : v.asQuery with
    | none => simp [hv]
    | some result =>
      by_cases hc : result.success = false ∨ result.pods = none
      · simp [hv, hc]
      · simp [hv, hc]

theorem runSolve_error_sublist {st : SvcState} {now : Nat} {eqn : String} {o : Oracle}
    {msg : String} (h : (runSolve st now eqn o).1 = Except.error msg) :
    ((runSolve st now eqn o).2).cache.Sublist st.cache := by
  have hsub := getCached_snd_sublist st.cache now ("solve:" ++ eqn)
  revert h
  simp only [runSolve]
  cases hhit : (getCached st.cache now ("solve:" ++ eqn)).1 with
  | some v =>
    by_cases htr : v.truthy
    · simp [htr]
    · simp only [htr, Bool.false_eq_true, if_false]
      intro h
      exact (runSolveBody_error_sublist h).trans hsub
  | none =>
    intro h
    exact (runSolveBody_error_sublist h).trans hsub

theorem runSteps_error_sublist {st : SvcState} {now : Nat} {pb : String} {o : Oracle}
    {msg : String} (h : (runSteps st now pb o).1 = Except.error msg) :
    ((runSteps st now pb o).2).cache.Sublist st.cache := by
  have hsub := getCached_snd_sublist st.cache now ("steps:" ++ pb)
  revert h
  simp only [runSteps]
  cases hhit : (getCached st.cache now ("steps:" ++ pb)).1 with
  | some v =>
    by_cases htr : v.truthy
    · simp [htr]
    · simp only [htr, Bool.false_eq_true, if_false]
      intro h
      exact (runStepsBody_error_sublist h).trans hsub
  | none =>
    intro h
    exact (runStepsBody_error_sublist h).trans hsub

theorem runFacts_error_sublist {st : SvcState} {now : Nat} {tp : String} {o : Oracle}
    {msg : String} (h : (runFacts st now tp o).1 = Except.error msg) :
    ((runFacts st now tp o).2).cache.Sublist st.cache := by
  have hsub := getCached_snd_sublist st.cache now ("facts:" ++ tp)
  revert h
  simp only [runFacts]
  cases hhit : (getCached st.cache now ("facts:" ++ tp)).1 with
  | some v =>
    by_cases htr : v.truthy
    · simp [htr]
    · simp only [htr, Bool.false_eq_true, if_false]
      intro h
      exact (runFactsBody_error_sublist h).trans hsub
  | none =>
    intro h
    exact (runFactsBody_error_sublist h).trans hsub

theorem runAnalyze_error_sublist {st : SvcState} {now : Nat} {dt : String} {o : Oracle}
    {msg : String} (h : (runAnalyze st now dt o).1 = Except.error msg) :
    ((runAnalyze st now dt o).2).cache.Sublist st.cache := by
  have hsub := getCached_snd_sublist st.cache now ("analyze:" ++ dt)
  revert h
  simp only [runAnalyze]
  cases hhit : (getCached st.cache now ("analyze:" ++ dt)).1 with
  | some v =>
    by_cases htr : v.truthy
    · simp [htr]
    · simp only [htr, Bool.false_eq_true, if_false]
      intro h
      exact (runAnalyzeBody_error_sublist h).trans hsub
  | none =>
    intro h
    exact (runAnalyzeBody_error_sublist h).trans hsub

theorem runSimple_error_sublist {st : SvcState} {now : Nat} {input : String} {o : Oracle}
    {msg : String} (h : (runSimple st now input o).1 = Except.error msg) :
    ((runSimple st now input o).2).cache.Sublist st.cache := by
  have hsub := getCached_snd_sublist st.cache now ("simple:" ++ input)
  revert h
  simp only [runSimple]
  cases hhit : (getCached st.cache now ("simple:" ++ input)).1 with
  | some v =>
    by_cases htr : v.truthy
    · simp [htr]
    · simp only [htr, Bool.false_eq_true, if_false]
      intro h
      rw [runSimpleFetch_error_cache h]
      exact hsub
  | none =>
    intro h
    rw [runSimpleFetch_error_cache h]
    exact hsub

theorem runShortFetch_unsuccessful_cache {st : SvcState} {now : Nat} {key : String}
    {o : Oracle} {r : WolframShortAnswerResult}
    (h : (runShortFetch st now key o).1 = Except.ok (.shortRes r))
    (hs : r.success = false) : ((runShortFetch st now key o).2).cache = st.cache := by
  revert h
  simp only [runShortFetch]
  cases hr : (getWithRetry o.onShort 2 st.calls).1 with
  | error e => intro _; rfl
  | ok data =>
    intro h
    exfalso
    simp only [Except.ok.injEq, CacheValue.shortRes.injEq] at h
    rw [← h] at hs
    simp at hs

theorem runSpokenFetch_unsuccessful_cache {st : SvcState} {now : Nat} {key : String}
    {o : Oracle} {r : WolframSpokenResult}
    (h : (runSpokenFetch st now key o).1 = Except.ok (.spokenRes r))
    (hs : r.success = false) : ((runSpokenFetch st now key o).2).cache = st.cache := by
  revert h
  simp only [runSpokenFetch]
  cases hr : (getWithRetry o.onSpoken 2 st.calls).1 with
  | error e => intro _; rfl
  | ok data =>
    intro h
    exfalso
    simp only [Except.ok.injEq, CacheValue.spokenRes.injEq] at h
    rw [← h] at hs
    simp at hs

theorem runShort_unsuccessful_sublist {st : SvcState} {now : Nat} {input : String}
    {o : Oracle} {r : WolframShortAnswerResult}
    (h : (runShort st now input o).1 = Except.ok (.shortRes r)) (hs : r.success = false) :
    ((runShort st now input o).2).cache.Sublist st.cache := by
  have hsub := getCached_snd_sublist st.cache now ("short:" ++ input)
  revert h
  simp only [runShort]
  cases hhit : (getCached st.cache now ("short:" ++ input)).1 with
  | some v =>
    by_cases htr : v.truthy
    · simp only [htr, if_true]
      intro _
      exact hsub
    · simp only [htr, Bool.false_eq_true, if_false]
      intro h
      rw [runShortFetch_unsuccessful_cache h hs]
      exact hsub
  | none =>
    intro h
    rw [runShortFetch_unsuccessful_cache h hs]
    exact hsub

theorem runSpoken_unsuccessful_sublist {st : SvcState} {now : Nat} {input : String}
    {o : Oracle} {r : WolframSpokenResult}
    (h : (runSpoken st now input o).1 = Except.ok (.spokenRes r)) (hs : r.success = false) :
    ((runSpoken st now input o).2).cache.Sublist st.cache := by
  have hsub := getCached_snd_sublist st.cache now ("spoken:" ++ input)
  revert h
  simp only [runSpoken]
  cases hhit : (getCached st.cache now ("spoken:" ++ input)).1 with
  | some v =>
    by_cases htr : v.truthy
    · simp only [htr, if_true]
      intro _
      exact hsub
    · simp only [htr, Bool.false_eq_true, if_false]
      intro h
      rw [runSpokenFetch_unsuccessful_cache h hs]
      exact hsub
  | none =>
    intro h
    rw [runSpokenFetch_unsuccessful_cache h hs]
    exact hsub

theorem queryKey_ne_factsKey (t : String) (opts : List (String × String)) :
    queryCacheKey t opts ≠ "facts:" ++ t := by
  intro h
  have h2 := congrArg String.data h
  unfold queryCacheKey at h2
  simp only [String.data_append] at h2
  simp only [List.cons_append, List.nil_append, List.append_assoc,
    List.cons.injEq] at h2
  exact absurd h2.1 (by decide)

/-- A query on a cold key with a successful transport caches its result and
returns it. -/
theorem runQuery_miss_success {st : SvcState} {now : Nat} {input : String}
    {opts : List (String × String)} {o : Oracle} {r : WolframAlphaQueryResult}
    (hmiss : mapGet st.cache (queryCacheKey input opts) = none)
    (hok : (getWithRetry o.onQuery 2 st.calls).1 = Except.ok r)
    (hsucc : r.success = true) :
    runQuery st now input opts o =
      (Except.ok (.queryRes r),
        { st with
          cache := setCached st.cache now (queryCacheKey input opts) (.queryRes r) CACHE_TTL,
          calls := (getWithRetry o.onQuery 2 st.calls).2.1 }) := by
  simp only [runQuery, getCached_miss hmiss, runQueryFetch]
  rw [hok]
  simp [hsucc]

/-- The corrected C6 behavior of getFacts: on a cold cache with a successful
remote result carrying pods, the extracted facts list — even when empty — is
committed to the cache under the facts key. -/
theorem runFacts_writes {st : SvcState} {now : Nat} {tp : String} {o : Oracle}
    {r : WolframAlphaQueryResult} {pods : List WolframPod}
    (hmissF : mapGet st.cache ("facts:" ++ tp) = none)
    (hmissQ : mapGet st.cache (queryCacheKey tp []) = none)
    (hok : (getWithRetry o.onQuery 2 st.calls).1 = Except.ok r)
    (hsucc : r.success = true) (hpods : r.pods = some pods) :
    mapGet ((runFacts st now tp o).2).cache ("facts:" ++ tp) =
      some ⟨"facts:" ++ tp, .strList (factsFromPods pods), now, CACHE_TTL⟩ := by
  have hbody : runFacts st now tp o = runFactsBody st now ("facts:" ++ tp) tp o := by
    simp only [runFacts, getCached_miss hmissF]
  rw [hbody]
  have hcond : (!r.success || r.pods.isNone) = false := by
    rw [hsucc, hpods]
    rfl
  simp only [runFactsBody, runQuery_miss_success hmissQ hok hsucc, CacheValue.asQuery,
    hsucc, hpods, Bool.not_true, Option.isNone_some, Bool.false_or, Bool.or_self,
    Bool.false_eq_true, if_false, Option.getD_some]
  refine setCached_fresh_mapGet (CacheValue.strList (factsFromPods pods)) CACHE_TTL ?_
  exact setCached_preserves_none (CacheValue.queryRes r) CACHE_TTL hmissF
    (queryKey_ne_factsKey tp [])

theorem runSolveBody_unsuccessful_sublist {st : SvcState} {now : Nat} {key eqn : String}
    {o : Oracle} {r : WolframAlphaQueryResult}
    (h : (runQuery st now ("solve " ++ eqn) [] o).1 = Except.ok (.queryRes r))
    (hs : r.success = false) :
    ((runSolveBody st now key eqn o).2).cache.Sublist st.cache := by
  have hsub := runQuery_unsuccessful_sublist h hs
  simp only [runSolveBody, h, CacheValue.asQuery]
  simp [hs]
  exact hsub

theorem runStepsBody_unsuccessful_sublist {st : SvcState} {now : Nat} {key pb : String}
    {o : Oracle} {r : WolframAlphaQueryResult}
    (h : (runQuery st now pb [("podstate", "Step-by-step solution")] o).1 =
      Except.ok (.queryRes r))
    (hs : r.success = false) :
    ((runStepsBody st now key pb o).2).cache.Sublist st.cache := by
  have hsub := runQuery_unsuccessful_sublist h hs
  simp only [runStepsBody, h, CacheValue.asQuery]
  simp [hs]
  exact hsub

theorem runFactsBody_unsuccessful_sublist {st : SvcState} {now : Nat} {key tp : String}
    {o : Oracle} {r : WolframAlphaQueryResult}
    (h : (runQuery st now tp [] o).1 = Except.ok (.queryRes r))
    (hs : r.success = false) :
    ((runFactsBody st now key tp o).2).cache.Sublist st.cache := by
  have hsub := runQuery_unsuccessful_sublist h hs
  simp only [runFactsBody, h, CacheValue.asQuery]
  simp [hs]
  exact hsub

theorem runAnalyzeBody_unsuccessful_sublist {st : SvcState} {now : Nat} {key dt : String}
    {o : Oracle} {r : WolframAlphaQueryResult}
    (h : (runQuery st now ("statistics " ++ dt) [] o).1 = Except.ok (.queryRes r))
    (hs : r.success = false) :
    ((runAnalyzeBody st now key dt o).2).cache.Sublist st.cache := by
  have hsub := runQuery_unsuccessful_sublist h hs
  simp only [runAnalyzeBody, h, CacheValue.asQuery]
  simp [hs]
  exact hsub

theorem runSolve_unsuccessful_sublist {st : SvcState} {now : Nat} {eqn : String}
    {o : Oracle} {r : WolframAlphaQueryResult}
    (h : (runQuery { st with cache := (getCached st.cache now ("solve:" ++ eqn)).2 } now
      ("solve " ++ eqn) [] o).1 = Except.ok (.queryRes r))
    (hs : r.success = false) :
    ((runSolve st now eqn o).2).cache.Sublist st.cache := by
  have hsubg := getCached_snd_sublist st.cache now ("solve:" ++ eqn)
  simp only [runSolve]
  cases hhit : (getCached st.cache now ("solve:" ++ eqn)).1 with
  | some v =>
    by_cases htr : v.truthy
    · simp only [htr, if_true]
      exact hsubg
    · simp only [htr, Bool.false_eq_true, if_false]
      exact (runSolveBody_unsuccessful_sublist h hs).trans hsubg
  | none => exact (runSolveBody_unsuccessful_sublist h hs).trans hsubg

theorem runSteps_unsuccessful_sublist {st : SvcState} {now : Nat} {pb : String}
    {o : Oracle} {r : WolframAlphaQueryResult}
    (h : (runQuery { st with cache := (getCached st.cache now ("steps:" ++ pb)).2 } now
      pb [("podstate", "Step-by-step solution")] o).1 = Except.ok (.queryRes r))
    (hs : r.success = false) :
    ((runSteps st now pb o).2).cache.Sublist st.cache := by
  have hsubg := getCached_snd_sublist st.cache now ("steps:" ++ pb)
  simp only [runSteps]
  cases hhit : (getCached st.cache now ("steps:" ++ pb)).1 with
  | some v =>
    by_cases htr : v.truthy
    · simp only [htr, if_true]
      exact hsubg
    · simp only [htr, Bool.false_eq_true, if_false]
      exact (runStepsBody_unsuccessful_sublist h hs).trans hsubg
  | none => exact (runStepsBody_unsuccessful_sublist h hs).trans hsubg

theorem runFacts_unsuccessful_sublist {st : SvcState} {now : Nat} {tp : String}
    {o : Oracle} {r : WolframAlphaQueryResult}
    (h : (runQuery { st with cache := (getCached st.cache now ("facts:" ++ tp)).2 } now
      tp [] o).1 = Except.ok (.queryRes r))
    (hs : r.success = false) :
    ((runFacts st now tp o).2).cache.Sublist st.cache := by
  have hsubg := getCached_snd_sublist st.cache now ("facts:" ++ tp)
  simp only [runFacts]
  cases hhit : (getCached st.cache now ("facts:" ++ tp)).1 with
  | some v =>
    by_cases htr : v.truthy
    · simp only [htr, if_true]
      exact hsubg
    · simp only [htr, Bool.false_eq_true, if_false]
      exact (runFactsBody_unsuccessful_sublist h hs).trans hsubg
  | none => exact (runFactsBody_unsuccessful_sublist h hs).trans hsubg

theorem runAnalyze_unsuccessful_sublist {st : SvcState} {now : Nat} {dt : String}
    {o : Oracle} {r : WolframAlphaQueryResult}
    (h : (runQuery { st with cache := (getCached st.cache now ("analyze:" ++ dt)).2 } now
      ("statistics " ++ dt) [] o).1 = Except.ok (.queryRes r))
    (hs : r.success = false) :
    ((runAnalyze st now dt o).2).cache.Sublist st.cache := by
  have hsubg := getCached_snd_sublist st.cache now ("analyze:" ++ dt)
  simp only [runAnalyze]
  cases hhit : (getCached st.cache now ("analyze:" ++ dt)).1 with
  | some v =>
    by_cases htr : v.truthy
    · simp only [htr, if_true]
      exact hsubg
    · simp only [htr, Bool.false_eq_true, if_false]
      exact (runAnalyzeBody_unsuccessful_sublist h hs).trans hsubg
  | none => exact (runAnalyzeBody_unsuccessful_sublist h hs).trans hsubg

theorem queryKey_ne_stepsKey (t pb : String) (opts : List (String × String)) :
    queryCacheKey t opts ≠ "steps:" ++ pb := by
  intro h
  have h2 := congrArg String.data h
  unfold queryCacheKey at h2
  simp only [String.data_append] at h2
  simp only [List.cons_append, List.nil_append, List.append_assoc,
    List.cons.injEq] at h2
  exact absurd h2.1 (by decide)

theorem queryKey_ne_analyzeKey (t dt : String) (opts : List (String × String)) :
    queryCacheKey t opts ≠ "analyze:" ++ dt := by
  intro h
  have h2 := congrArg String.data h
  unfold queryCacheKey at h2
  simp only [String.data_append] at h2
  simp only [List.cons_append, List.nil_append, List.append_assoc,
    List.cons.injEq] at h2
  exact absurd h2.1 (by decide)

/-- The steps list getStepByStep commits: the step-pod collection, or the
labelled fallback over all pods when that collection is empty. -/
def stepsExtract (pods : List WolframPod) : List String :=
  if (stepsFromPods pods).length = 0 then stepsFallback pods else stepsFromPods pods

/-- The corrected C6 behavior of getStepByStep: on a cold cache with a
successful remote result carrying pods, the extracted steps list — even when
empty — is committed to the cache under the steps key. -/
theorem runSteps_writes {st : SvcState} {now : Nat} {pb : String} {o : Oracle}
    {r : WolframAlphaQueryResult} {pods : List WolframPod}
    (hmissS : mapGet st.cache ("steps:" ++ pb) = none)
    (hmissQ : mapGet st.cache (queryCacheKey pb [("podstate", "Step-by-step solution")]) =
      none)
    (hok : (getWithRetry o.onQuery 2 st.calls).1 = Except.ok r)
    (hsucc : r.success = true) (hpods : r.pods = some pods) :
    mapGet ((runSteps st now pb o).2).cache ("steps:" ++ pb) =
      some ⟨"steps:" ++ pb, .strList (stepsExtract pods), now, CACHE_TTL⟩ := by
  have hbody : runSteps st now pb o = runStepsBody st now ("steps:" ++ pb) pb o := by
    simp only [runSteps, getCached_miss hmissS]
  rw [hbody]
  simp only [runStepsBody, runQuery_miss_success hmissQ hok hsucc, CacheValue.asQuery,
    hsucc, hpods, Bool.not_true, Option.isNone_some, Bool.false_or, Bool.or_self,
    Bool.false_eq_true, if_false, Option.getD_some, stepsExtract]
  refine setCached_fresh_mapGet
    (CacheValue.strList
      (if (stepsFromPods pods).length = 0 then stepsFallback pods else stepsFromPods pods))
    CACHE_TTL ?_
  exact setCached_preserves_none (CacheValue.queryRes r) CACHE_TTL hmissS
    (queryKey_ne_stepsKey pb pb [("podstate", "Step-by-step solution")])

/-- The corrected C6 behavior of analyzeData: on a cold cache with a
successful remote result carrying pods, the extracted analysis — even with an
empty results table — is committed to the cache under the analyze key. -/
theorem runAnalyze_writes {st : SvcState} {now : Nat} {dt : String} {o : Oracle}
    {r : WolframAlphaQueryResult} {pods : List WolframPod}
    (hmissA : mapGet st.cache ("analyze:" ++ dt) = none)
    (hmissQ : mapGet st.cache (queryCacheKey ("statistics " ++ dt) []) = none)
    (hok : (getWithRetry o.onQuery 2 st.calls).1 = Except.ok r)
    (hsucc : r.success = true) (hpods : r.pods = some pods) :
    mapGet ((runAnalyze st now dt o).2).cache ("analyze:" ++ dt) =
      some ⟨"analyze:" ++ dt, .analysisRes ⟨dt, analysisResults pods, none⟩, now,
        CACHE_TTL⟩ := by
  have hbody : runAnalyze st now dt o = runAnalyzeBody st now ("analyze:" ++ dt) dt o := by
    simp only [runAnalyze, getCached_miss hmissA]
  rw [hbody]
  simp only [runAnalyzeBody, runQuery_miss_success hmissQ hok hsucc, CacheValue.asQuery,
    hsucc, hpods, Bool.not_true, Option.isNone_some, Bool.false_or, Bool.or_self,
    Bool.false_eq_true, if_false, Option.getD_some]
  refine setCached_fresh_mapGet (CacheValue.analysisRes ⟨dt, analysisResults pods, none⟩)
    CACHE_TTL ?_
  exact setCached_preserves_none (CacheValue.queryRes r) CACHE_TTL hmissA
    (queryKey_ne_analyzeKey ("statistics " ++ dt) dt [])

/-- A pod whose only fragment is 5 characters long: no fact clears the
10-character bar, so the extracted facts list is empty. -/
def thinPod : WolframPod := ⟨"Properties", "data", false, some [⟨some "short"⟩]⟩

/-- A successful remote result carrying only the thin pod. -/
def rThin : WolframAlphaQueryResult := ⟨true, some 1, some [thinPod], none, none⟩

/-- A pod with a subpod carrying no plaintext at all. -/
def silentPod : WolframPod := ⟨"Properties", "data", false, some [⟨none⟩]⟩

/-- A successful remote result carrying only the silent pod. -/
def rSilent : WolframAlphaQueryResult := ⟨true, some 1, some [silentPod], none, none⟩

/-- A transport whose query endpoint always returns the thin result. -/
def oracleThin : Oracle :=
  ⟨fun _ => .ok rThin, fun _ => .err ⟨none, "unused"⟩, fun _ => .err ⟨none, "unused"⟩,
    fun _ => .err ⟨none, "unused"⟩, fun _ => .err ⟨none, "unused"⟩⟩

/-- A transport whose query endpoint always returns the silent result. -/
def oracleSilent : Oracle :=
  ⟨fun _ => .ok rSilent, fun _ => .err ⟨none, "unused"⟩, fun _ => .err ⟨none, "unused"⟩,
    fun _ => .err ⟨none, "unused"⟩, fun _ => .err ⟨none, "unused"⟩⟩

/-- C6 counterexample: getFacts finds no usable content (every fragment is
too short), returns the no-facts placeholder — yet the call changes the cache,
committing the empty facts list (and the delegated query result), contrary to
the claim that an unsuccessful call leaves the cache state unchanged. -/
theorem claim_C6_counterexample :
    (runFacts emptyState 0 "t" oracleThin).1 =
      Except.ok (CacheValue.strList ["No facts found about t"]) ∧
    mapGet ((runFacts emptyState 0 "t" oracleThin).2).cache "facts:t" =
      some ⟨"facts:t", CacheValue.strList [], 0, CACHE_TTL⟩ ∧
    ((runFacts emptyState 0 "t" oracleThin).2).cache ≠ emptyState.cache := by
  refine ⟨by decide, by decide, by decide⟩

/-- C6 (amended): no operation adds or overwrites a cache entry after a
thrown transport failure or a success-flag-false remote result — for the
delegating operations (solveMath, getStepByStep, getFacts, analyzeData) a
success-flag-false delegated query likewise leaves the cache a sublist of
what it was (at most lazily expired entries are removed, and a
remote-successful delegated query may cache its own result); but getFacts,
getStepByStep and analyzeData each commit their extracted collection
whenever the remote query succeeds with a pods array, even when that
collection is empty, i.e. when no usable content was found. -/
theorem claim_C6_no_cache_on_failure :
    (∀ (st : SvcState) (now : Nat) (input : String) (opts : List (String × String))
      (o : Oracle) (msg : String), (runQuery st now input opts o).1 = Except.error msg →
      ((runQuery st now input opts o).2).cache.Sublist st.cache) ∧
    (∀ (st : SvcState) (now : Nat) (input : String) (opts : List (String × String))
      (o : Oracle) (r : WolframAlphaQueryResult),
      (runQuery st now input opts o).1 = Except.ok (.queryRes r) → r.success = false →
      ((runQuery st now input opts o).2).cache.Sublist st.cache) ∧
    (∀ (st : SvcState) (now : Nat) (input : String) (o : Oracle)
      (r : WolframShortAnswerResult),
      (runShort st now input o).1 = Except.ok (.shortRes r) → r.success = false →
      ((runShort st now input o).2).cache.Sublist st.cache) ∧
    (∀ (st : SvcState) (now : Nat) (input : String) (o : Oracle)
      (r : WolframSpokenResult),
      (runSpoken st now input o).1 = Except.ok (.spokenRes r) → r.success = false →
      ((runSpoken st now input o).2).cache.Sublist st.cache) ∧
    (∀ (st : SvcState) (now : Nat) (input : String) (o : Oracle) (msg : String),
      (runSimple st now input o).1 = Except.error msg →
      ((runSimple st now input o).2).cache.Sublist st.cache) ∧
    (∀ (st : SvcState) (now : Nat) (eqn : String) (o : Oracle) (msg : String),
      (runSolve st now eqn o).1 = Except.error msg →
      ((runSolve st now eqn o).2).cache.Sublist st.cache) ∧
    (∀ (st : SvcState) (now : Nat) (pb : String) (o : Oracle) (msg : String),
      (runSteps st now pb o).1 = Except.error msg →
      ((runSteps st now pb o).2).cache.Sublist st.cache) ∧
    (∀ (st : SvcState) (now : Nat) (tp : String) (o : Oracle) (msg : String),
      (runFacts st now tp o).1 = Except.error msg →
      ((runFacts st now tp o).2).cache.Sublist st.cache) ∧
    (∀ (st : SvcState) (now : Nat) (dt : String) (o : Oracle) (msg : String),
      (runAnalyze st now dt o).1 = Except.error msg →
      ((runAnalyze st now dt o).2).cache.Sublist st.cache) ∧
    (∀ (st : SvcState) (now : Nat) (tp : String) (o : Oracle)
      (r : WolframAlphaQueryResult) (pods : List WolframPod),
      mapGet st.cache ("facts:" ++ tp) = none →
      mapGet st.cache (queryCacheKey tp []) = none →
      (getWithRetry o.onQuery 2 st.calls).1 = Except.ok r → r.success = true →
      r.pods = some pods →
      mapGet ((runFacts st now tp o).2).cache ("facts:" ++ tp) =
        some ⟨"facts:" ++ tp, .strList (factsFromPods pods), now, CACHE_TTL⟩) ∧
    (mapGet ((runSteps emptyState 0 "p" oracleSilent).2).cache "steps:p" =
        some ⟨"steps:p", CacheValue.strList [], 0, CACHE_TTL⟩ ∧
      (runSteps emptyState 0 "p" oracleSilent).1 =
        Except.ok (CacheValue.strList ["No step-by-step solution available"])) ∧
    (mapGet ((runAnalyze emptyState 0 "d" oracleSilent).2).cache "analyze:d" =
        some ⟨"analyze:d", CacheValue.analysisRes ⟨"d", [], none⟩, 0, CACHE_TTL⟩ ∧
      (runAnalyze emptyState 0 "d" oracleSilent).1 =
        Except.ok (CacheValue.analysisRes ⟨"d", [], none⟩)) ∧
    (∀ (st : SvcState) (now : Nat) (eqn : String) (o : Oracle)
      (r : WolframAlphaQueryResult),
      (runQuery { st with cache := (getCached st.cache now ("solve:" ++ eqn)).2 } now
        ("solve " ++ eqn) [] o).1 = Except.ok (.queryRes r) → r.success = false →
      ((runSolve st now eqn o).2).cache.Sublist st.cache) ∧
    (∀ (st : SvcState) (now : Nat) (pb : String) (o : Oracle)
      (r : WolframAlphaQueryResult),
      (runQuery { st with cache := (getCached st.cache now ("steps:" ++ pb)).2 } now
        pb [("podstate", "Step-by-step solution")] o).1 = Except.ok (.queryRes r) →
      r.success = false → ((runSteps st now pb o).2).cache.Sublist st.cache) ∧
    (∀ (st : SvcState) (now : Nat) (tp : String) (o : Oracle)
      (r : WolframAlphaQueryResult),
      (runQuery { st with cache := (getCached st.cache now ("facts:" ++ tp)).2 } now
        tp [] o).1 = Except.ok (.queryRes r) → r.success = false →
      ((runFacts st now tp o).2).cache.Sublist st.cache) ∧
    (∀ (st : SvcState) (now : Nat) (dt : String) (o : Oracle)
      (r : WolframAlphaQueryResult),
      (runQuery { st with cache := (getCached st.cache now ("analyze:" ++ dt)).2 } now
        ("statistics " ++ dt) [] o).1 = Except.ok (.queryRes r) → r.success = false →
      ((runAnalyze st now dt o).2).cache.Sublist st.cache) ∧
    (∀ (st : SvcState) (now : Nat) (pb : String) (o : Oracle)
      (r : WolframAlphaQueryResult) (pods : List WolframPod),
      mapGet st.cache ("steps:" ++ pb) = none →
      mapGet st.cache (queryCacheKey pb [("podstate", "Step-by-step solution")]) = none →
      (getWithRetry o.onQuery 2 st.calls).1 = Except.ok r → r.success = true →
      r.pods = some pods →
      mapGet ((runSteps st now pb o).2).cache ("steps:" ++ pb) =
        some ⟨"steps:" ++ pb, .strList (stepsExtract pods), now, CACHE_TTL⟩) ∧
    (∀ (st : SvcState) (now : Nat) (dt : String) (o : Oracle)
      (r : WolframAlphaQueryResult) (pods : List WolframPod),
      mapGet st.cache ("analyze:" ++ dt) = none →
      mapGet st.cache (queryCacheKey ("statistics " ++ dt) []) = none →
      (getWithRetry o.onQuery 2 st.calls).1 = Except.ok r → r.success = true →
      r.pods = some pods →
      mapGet ((runAnalyze st now dt o).2).cache ("analyze:" ++ dt) =
        some ⟨"analyze:" ++ dt, .analysisRes ⟨dt, analysisResults pods, none⟩, now,
          CACHE_TTL⟩) := by
  refine ⟨?_, ?_, ?_, ?_, ?_, ?_, ?_, ?_, ?_, ?_, ⟨by decide, by decide⟩,
    ⟨by decide, by decide⟩, ?_, ?_, ?_, ?_, ?_, ?_⟩
  · intro st now input opts o msg h
    exact runQuery_error_sublist h
  · intro st now input opts o r h hs
    exact runQuery_unsuccessful_sublist h hs
  · intro st now input o r h hs
    exact runShort_unsuccessful_sublist h hs
  · intro st now input o r h hs
    exact runSpoken_unsuccessful_sublist h hs
  · intro st now input o msg h
    exact runSimple_error_sublist h
  · intro st now eqn o msg h
    exact runSolve_error_sublist h
  · intro st now pb o msg h
    exact runSteps_error_sublist h
  · intro st now tp o msg h
    exact runFacts_error_sublist h
  · intro st now dt o msg h
    exact runAnalyze_error_sublist h
  · intro st now tp o r pods h1 h2 h3 h4 h5
    exact runFacts_writes h1 h2 h3 h4 h5
  · intro st now eqn o r h hs
    exact runSolve_unsuccessful_sublist h hs
  · intro st now pb o r h hs
    exact runSteps_unsuccessful_sublist h hs
  · intro st now tp o r h hs
    exact runFacts_unsuccessful_sublist h hs
  · intro st now dt o r h hs
    exact runAnalyze_unsuccessful_sublist h hs
  · intro st now pb o r pods h1 h2 h3 h4 h5
    exact runSteps_writes h1 h2 h3 h4 h5
  · intro st now dt o r pods h1 h2 h3 h4 h5
    exact runAnalyze_writes h1 h2 h3 h4 h5

/-- A remote result with the success flag down. -/
def rFail : WolframAlphaQueryResult := ⟨false, none, none, none, none⟩

/-- A transport whose query endpoint always reports success: false. -/
def oracleFail : Oracle :=
  ⟨fun _ => .ok rFail, fun _ => .err ⟨none, "unused"⟩, fun _ => .err ⟨none, "unused"⟩,
    fun _ => .err ⟨none, "unused"⟩, fun _ => .err ⟨none, "unused"⟩⟩

/-- C6 witness: a thrown query leaves the empty cache empty; on the thin
result getFacts commits the (empty) extracted facts list under its key; on
the silent result getStepByStep commits the (empty) steps list; and a
success-flag-false delegated query leaves the getFacts cache untouched. -/
theorem claim_C6_no_cache_on_failure_witness :
    ((runQuery emptyState 0 "x" [] oracle404).2).cache.Sublist emptyState.cache ∧
    mapGet ((runFacts emptyState 0 "t" oracleThin).2).cache ("facts:" ++ "t") =
      some ⟨"facts:" ++ "t", CacheValue.strList (factsFromPods [thinPod]), 0, CACHE_TTL⟩ ∧
    mapGet ((runSteps emptyState 0 "p" oracleSilent).2).cache ("steps:" ++ "p") =
      some ⟨"steps:" ++ "p", CacheValue.strList (stepsExtract [silentPod]), 0, CACHE_TTL⟩ ∧
    ((runFacts emptyState 0 "t" oracleFail).2).cache.Sublist emptyState.cache := by
  refine ⟨?_, ?_, ?_, ?_⟩
  · exact claim_C6_no_cache_on_failure.1 emptyState 0 "x" [] oracle404
      ("Wolfram query failed: " ++ "Request failed with status code 404") (by decide)
  · exact claim_C6_no_cache_on_failure.2.2.2.2.2.2.2.2.2.1 emptyState 0 "t" oracleThin
      rThin [thinPod] (by decide) (by decide) (by decide) (by decide) (by decide)
  · exact claim_C6_no_cache_on_failure.2.2.2.2.2.2.2.2.2.2.2.2.2.2.2.2.1 emptyState 0 "p"
      oracleSilent rSilent [silentPod] (by decide) (by decide) (by decide) (by decide)
      (by decide)
  · exact claim_C6_no_cache_on_failure.2.2.2.2.2.2.2.2.2.2.2.2.2.2.1 emptyState 0 "t"
      oracleFail rFail (by decide) (by decide)

end Wolfram
